import Mathlib

/-!
# Messaging page of the social-network client: conversation list reconciliation

A shallow embedding of `frontend/src/Pages/MessagesPage.jsx`.  React state is an
explicit record, every handler is a function from the state (and the replies of
the server, which are inputs) to the new state and the list of events it emitted.
A handler that awaits nothing, or whose writes do not depend on when its reply
arrives, is one function run to completion.  The two functions of the deep link check
a list before an `await` and write after it, so each is a `Start` and a `Resume`
part, and `Page.step` lets the replies reach the page one at a time; the thread fetch
is treated the same way by `Session.step`.

Conventions of the embedding

* `createdAt` is the time value, in milliseconds since the epoch, that
  `new Date(createdAt)` yields; the model covers timestamps that parse to a
  valid date.
* A missing or `null` field of a JSON object is `none`.
* `Array.prototype.sort` is stable; for a comparator that is a total preorder
  the result is the unique stable arrangement, computed here by insertion.
-/

namespace MessagesPage

/-! ## Data model -/

/-- A user object as the server sends it; only the fields the page reads. -/
structure User where
  _id : String
  name : Option String
  username : Option String
  headline : Option String
deriving DecidableEq, Repr

/-- The `lastMessage` summary carried by a conversation. -/
structure LastMessage where
  content : Option String
  metaContent : Option String
  createdAt : Int
deriving DecidableEq, Repr

/-- One entry of the conversation list. -/
structure Conversation where
  user : User
  lastMessage : Option LastMessage
  unreadCount : Nat
deriving DecidableEq, Repr

/-! ## The merge of the poll (lines 189-210) -/

/-- The set `existingConversationUsers`: the counterpart ids of the server's list. -/
def existingConversationUsers (existingConversations : List Conversation) : List String :=
  existingConversations.map (fun conv => conv.user._id)

/-- The object literal built for a connection, and for a deep-linked user. -/
def placeholder (connection : User) : Conversation :=
  { user := connection, lastMessage := none, unreadCount := 0 }

/-- The list `newConversations`: connections not yet a counterpart, as placeholders. -/
def newConversations (existingConversations : List Conversation) (connections : List User) :
    List Conversation :=
  (connections.filter
      (fun connection => !((existingConversationUsers existingConversations).contains connection._id))).map
    placeholder

/-- The list `allConversations` before it is sorted. -/
def allConversations (existingConversations : List Conversation) (connections : List User) :
    List Conversation :=
  existingConversations ++ newConversations existingConversations connections

/-- The value `a.lastMessage?.createdAt || 0` passed through `new Date`. -/
def sortTime (a : Conversation) : Int :=
  match a.lastMessage with
  | some m => m.createdAt
  | none => 0

/-- The comparator of the sort: `new Date(timeB) - new Date(timeA)`. -/
def compareFn (a b : Conversation) : Int :=
  sortTime b - sortTime a

/-- The stable sort `Array.prototype.sort(compareFn)`: `a` stays before `b` when
`compareFn a b ≤ 0`. -/
def sort {α : Type} (cmp : α → α → Int) (l : List α) : List α :=
  List.insertionSort (fun a b => cmp a b ≤ 0) l

/-- The comparator orders any two conversations. -/
instance compareFn_isTotal : IsTotal Conversation (fun a b => compareFn a b ≤ 0) :=
  ⟨fun a b => by
    unfold compareFn
    omega⟩

/-- The comparator's order is transitive. -/
instance compareFn_isTrans : IsTrans Conversation (fun a b => compareFn a b ≤ 0) :=
  ⟨fun a b c hab hbc => by
    unfold compareFn at *
    omega⟩

/-- The list `sortedConversations`. -/
def sortedConversations (existingConversations : List Conversation) (connections : List User) :
    List Conversation :=
  sort compareFn (allConversations existingConversations connections)

/-! ## JSON.stringify on conversation lists

The text `JSON.stringify` produces for the modelled fields, keys in the order
the records list them.  Only `"` and `\` are escaped inside strings, and
`createdAt` is printed as its time value. -/

/-- The characters of a literal piece of JSON text. -/
def lit (s : String) : List Char := s.data

/-- The escape of one character inside a JSON string. -/
def escapeChar (c : Char) : List Char :=
  if c = '"' then ['\\', '"'] else if c = '\\' then ['\\', '\\'] else [c]

/-- The escaped characters of a string, followed by the closing quote. -/
def quoteBody : List Char → List Char
  | [] => ['"']
  | c :: cs => escapeChar c ++ quoteBody cs

/-- A JSON string literal. -/
def quote (s : String) : List Char := '"' :: quoteBody s.data

/-- The decimal digits of a natural number. -/
def decimal (n : Nat) : List Char :=
  if n = 0 then ['0'] else ((Nat.digits 10 n).reverse).map Nat.digitChar

/-- The decimal text of an integer. -/
def intChars (i : Int) : List Char :=
  if i < 0 then '-' :: decimal i.natAbs else decimal i.natAbs

/-- A nullable value: `null` when absent. -/
def orNull {α : Type} (enc : α → List Char) : Option α → List Char
  | none => ['n', 'u', 'l', 'l']
  | some a => enc a

/-- The elements of an array after its first one, each preceded by a comma, followed
by the closing bracket. -/
def moreElements {α : Type} (enc : α → List Char) : List α → List Char
  | [] => [']']
  | b :: l => ',' :: (enc b ++ moreElements enc l)

/-- The elements of an array, separated by commas, followed by the closing bracket. -/
def elements {α : Type} (enc : α → List Char) : List α → List Char
  | [] => [']']
  | a :: l => enc a ++ moreElements enc l

/-- The JSON text of a user. -/
def userJson (u : User) : List Char :=
  '\x7b' :: (lit "\"_id\":" ++ (quote u._id ++ (lit ",\"name\":" ++ (orNull quote u.name ++
    (lit ",\"username\":" ++ (orNull quote u.username ++ (lit ",\"headline\":" ++
    (orNull quote u.headline ++ ['\x7d'])))))))) 

/-- The JSON text of a last-message summary. -/
def lastMessageJson (m : LastMessage) : List Char :=
  '\x7b' :: (lit "\"content\":" ++ (orNull quote m.content ++ (lit ",\"metaContent\":" ++
    (orNull quote m.metaContent ++ (lit ",\"createdAt\":" ++ (intChars m.createdAt ++ ['\x7d']))))))

/-- The JSON text of a conversation. -/
def conversationJson (c : Conversation) : List Char :=
  '\x7b' :: (lit "\"user\":" ++ (userJson c.user ++ (lit ",\"lastMessage\":" ++
    (orNull lastMessageJson c.lastMessage ++ (lit ",\"unreadCount\":" ++
    (decimal c.unreadCount ++ ['\x7d']))))))

/-- An encoder is self-delimiting when a text that begins with an encoding determines
both the encoded value and the text that follows it. -/
def SelfDelimiting {α : Type} (enc : α → List Char) : Prop :=
  ∀ a a' r r', enc a ++ r = enc a' ++ r' → a = a' ∧ r = r'

/-- The digit values whose characters `decimal` prints. -/
def decimalDigits (n : Nat) : List Nat :=
  if n = 0 then [0] else (Nat.digits 10 n).reverse

/-- The call `JSON.stringify(list)` on a conversation list. -/
def JSON.stringify (l : List Conversation) : String :=
  String.mk ('[' :: elements conversationJson l)

/-- The state updater `prev => hasChanges ? sortedConversations : prev` handed to
`setConversations` and to `setFilteredConversations` (lines 212-220). -/
def keepIfUnchanged (sortedConversations prev : List Conversation) : List Conversation :=
  let hasChanges := JSON.stringify prev != JSON.stringify sortedConversations
  if hasChanges then sortedConversations else prev

/-! ## Component state, replies and events -/

/-- A file chosen in the file input. -/
structure File where
  name : String
  size : Nat
deriving DecidableEq, Repr

/-- A post snapshot embedded in a message. -/
structure Post where
  authorName : Option String
  authorUsername : Option String
  authorProfilePicture : Option String
  image : Option String
  content : Option String
  likes : Nat
  comments : Nat
deriving DecidableEq, Repr

/-- A message of a thread. -/
structure Message where
  _id : String
  sender : String
  content : Option String
  fileUrl : Option String
  fileName : Option String
  fileSize : Option Nat
  sharedPost : Option Post
  createdAt : Int
deriving DecidableEq, Repr

/-- The payload of `/messages/request-status/:id`. -/
structure RequestStatus where
  hasRequest : Bool
  isSender : Bool
  canMessage : Bool
  requestId : Option String
deriving DecidableEq, Repr

/-- The `useState` cells of the component. -/
structure State where
  conversations : List Conversation
  filteredConversations : List Conversation
  searchQuery : String
  selectedUser : Option User
  messages : List Message
  newMessage : String
  loading : Bool
  showOptions : Bool
  attachedFile : Option File
  uploadingFile : Bool
  messageRequestStatus : Option RequestStatus
  isLoadingStatus : Bool
  showProfileFallback : Bool
  isMobileView : Bool
  showChat : Bool
deriving DecidableEq, Repr

/-- The state of `useState` at mount. -/
def State.initial : State :=
  { conversations := [], filteredConversations := [], searchQuery := "", selectedUser := none,
    messages := [], newMessage := "", loading := true, showOptions := false,
    attachedFile := none, uploadingFile := false, messageRequestStatus := none,
    isLoadingStatus := false, showProfileFallback := false, isMobileView := false,
    showChat := false }

/-- The body `{ success, data }` every endpoint of the messaging API answers with. -/
structure Envelope (α : Type) where
  success : Bool
  data : α
deriving DecidableEq, Repr

/-- What an `await axiosInstance...` yields: the promise rejects (with the status of
the response when there is one) or resolves with `response.data`. -/
inductive Reply (α : Type) where
  | failed (status : Option Nat) : Reply α
  | answered (data : α) : Reply α
deriving DecidableEq, Repr

/-- The requests the page issues. -/
inductive Request where
  | getConversations : Request
  | getConnections : Request
  | getUser (userId : String) : Request
  | getMessages (userId : String) : Request
  | markRead (userId : String) : Request
  | getRequestStatus (userId : String) : Request
  | send (recipientId : String) (content : String) : Request
  | sendFile (recipientId : String) (content : Option String) (file : File) : Request
  | acceptRequest (requestId : String) : Request
  | rejectRequest (requestId : String) : Request
deriving DecidableEq, Repr

/-- What a handler does besides writing state, in the order it does it. -/
inductive Event where
  | request (r : Request) : Event
  | toastError (message : String) : Event
  | toastSuccess (message : String) : Event
  | consoleError (message : String) : Event
  | preventDefault : Event
  | resetFileInput : Event
  | scrollToBottom : Event
  | scrollToBottomAfter (delay : Nat) : Event
deriving DecidableEq, Repr

/-- The result of running a handler to completion. -/
structure Outcome where
  state : State
  events : List Event
deriving DecidableEq, Repr

/-- The network requests among the events of an outcome, in order. -/
def Outcome.requests (o : Outcome) : List Request :=
  o.events.filterMap (fun e => match e with
    | Event.request r => some r
    | _ => none)

/-- Truthiness of `params.get('user')`: present and not the empty string. -/
def truthyId : Option String → Option String
  | some s => if s = "" then none else some s
  | none => none

/-! ## The deep link of the URL (lines 94-128)

An `async` function runs up to its `await` on the render that called it, and resumes
when the awaited request settles, on the state the page has then.  Each such function
is therefore two definitions: `...Start` returns, besides its outcome, the id of the
profile request it left in flight, if any; `...Resume` is given the reply. -/

/-- Lines 95-107 of `fetchUserAndSetSelected`: what runs before the `await`, on the
`conversations` of the render whose effect runs.  A held conversation with the id gives
the selected user; otherwise the profile is requested. -/
def fetchUserAndSetSelectedStart (userId : Option String) (st : State) :
    Outcome × Option String :=
  match truthyId userId with
  | none => ({ state := st, events := [] }, none)
  | some userId =>
    match st.conversations.find? (fun conv => conv.user._id == userId) with
    | some userConversation =>
      ({ state := { st with selectedUser := some userConversation.user }, events := [] }, none)
    | none =>
      ({ state := st, events := [Event.request (Request.getUser userId)] }, some userId)

/-- Lines 108-120 of `fetchUserAndSetSelected`: what runs when the profile request
settles, on the state current then; `st.conversations` is the `prev` of the updater of
line 111. -/
def fetchUserAndSetSelectedResume (response : Reply (Envelope User)) (st : State) : Outcome :=
  match response with
  | Reply.answered body =>
    if body.success then
      { state := { st with selectedUser := some body.data,
                           conversations := placeholder body.data :: st.conversations },
        events := [] }
    else
      { state := st, events := [] }
  | Reply.failed _ =>
    { state := st,
      events := [Event.consoleError "Error fetching user:",
                 Event.toastError "Failed to load user details"] }

/-- The body of the URL effect (lines 125-127): it calls the function only when the
list is non-empty. -/
def urlEffect (userId : Option String) (st : State) : Outcome × Option String :=
  if st.conversations.length > 0 then fetchUserAndSetSelectedStart userId st
  else ({ state := st, events := [] }, none)

/-! ## The conversation fetch and poll (lines 174-263) -/

/-- The function `fetchConversationsAndConnections` from the settling of its two list
requests up to the `await` of the profile (lines 189-232), or to its end when it awaits
no profile.  The deep link is checked against `sortedConversations`. -/
def fetchConversationsAndConnectionsStart (isInitialFetch : Bool) (urlUserId : Option String)
    (conversationsResponse : Reply (Envelope (List Conversation)))
    (connectionsResponse : Reply (List User)) (st : State) : Outcome × Option String :=
  let st0 : State := if isInitialFetch then { st with loading := true } else st
  let issued : List Event :=
    [Event.request Request.getConversations, Event.request Request.getConnections]
  let finish : Outcome → Outcome := fun o =>
    { state := if isInitialFetch then { o.state with loading := false } else o.state,
      events := o.events }
  match conversationsResponse, connectionsResponse with
  | Reply.answered conversationsData, Reply.answered connections =>
    if conversationsData.success then
      let sorted := sortedConversations conversationsData.data connections
      let st1 : State :=
        { st0 with
          conversations := keepIfUnchanged sorted st0.conversations,
          filteredConversations := keepIfUnchanged sorted st0.filteredConversations }
      match truthyId urlUserId, isInitialFetch with
      | some urlUserId, true =>
        match sorted.find? (fun conv => conv.user._id == urlUserId) with
        | some conv =>
          (finish { state := { st1 with selectedUser := some conv.user }, events := issued }, none)
        | none =>
          ({ state := st1, events := issued ++ [Event.request (Request.getUser urlUserId)] },
            some urlUserId)
      | _, _ => (finish { state := st1, events := issued }, none)
    else
      (finish { state := st0, events := issued }, none)
  | _, _ =>
    (finish
      { state := st0,
        events := issued ++ [Event.consoleError "Error fetching conversations and connections:",
                             Event.toastError "Failed to load conversations"] }, none)

/-- The function `fetchConversationsAndConnections` from the settling of its profile
request to its end (lines 234-262), on the state current then; `st.conversations` is the
`prev` of the updater of line 238.  This path is an initial fetch, so the `finally`
clears `loading`. -/
def fetchConversationsAndConnectionsResume (userResponse : Reply (Envelope User)) (st : State) :
    Outcome :=
  let o : Outcome :=
    match userResponse with
    | Reply.answered body =>
      if body.success then
        { state := { st with selectedUser := some body.data,
                             conversations := placeholder body.data :: st.conversations },
          events := [] }
      else
        { state := st, events := [] }
    | Reply.failed status =>
      { state := st,
        events := [Event.consoleError "Failed to fetch user:",
                   Event.toastError
                     (if status = some 404 then "User not found" else "Failed to load user data")] }
  { state := { o.state with loading := false }, events := o.events }

/-- A whole call of `fetchConversationsAndConnections` during which nothing else writes
the state: the profile reply, when one is awaited, arrives on the state the first part
left. -/
def fetchConversationsAndConnections (isInitialFetch : Bool) (urlUserId : Option String)
    (conversationsResponse : Reply (Envelope (List Conversation)))
    (connectionsResponse : Reply (List User))
    (userResponse : Reply (Envelope User)) (st : State) : Outcome :=
  match fetchConversationsAndConnectionsStart isInitialFetch urlUserId conversationsResponse
      connectionsResponse st with
  | (o, none) => o
  | (o, some _) =>
    { state := (fetchConversationsAndConnectionsResume userResponse o.state).state,
      events := o.events ++ (fetchConversationsAndConnectionsResume userResponse o.state).events }

/-- One tick of the interval: `fetchConversationsAndConnections(false)`, which never
asks for a profile, so no reply to that request is read. -/
def pollTick (urlUserId : Option String)
    (conversationsResponse : Reply (Envelope (List Conversation)))
    (connectionsResponse : Reply (List User)) (st : State) : Outcome :=
  fetchConversationsAndConnections false urlUserId conversationsResponse connectionsResponse
    (Reply.failed none) st

/-! ## Attaching a file and sending (lines 337-402) -/

/-- The limit `10 * 1024 * 1024` of `handleFileSelect`. -/
def maxFileSize : Nat := 10 * 1024 * 1024

/-- The handler `handleFileSelect`; `files` is `e.target.files`. -/
def handleFileSelect (files : List File) (st : State) : Outcome :=
  match files.head? with
  | none => { state := st, events := [] }
  | some file =>
    if file.size > maxFileSize then
      { state := st, events := [Event.toastError "File size must be less than 10MB"] }
    else
      { state := { st with attachedFile := some file }, events := [] }

/-- The code points `String.prototype.trim` strips: WhiteSpace and LineTerminator. -/
def isWhiteSpace (c : Char) : Bool :=
  let n := c.toNat
  n = 9 || n = 10 || n = 11 || n = 12 || n = 13 || n = 32 || n = 160 || n = 5760 ||
    (8192 ≤ n && n ≤ 8202) || n = 8232 || n = 8233 || n = 8239 || n = 8287 || n = 12288 ||
    n = 65279

/-- The method `String.prototype.trim`. -/
def trim (s : String) : String :=
  String.mk (((s.data.dropWhile isWhiteSpace).reverse.dropWhile isWhiteSpace).reverse)

/-- The handler `handleSendMessage`; `response` is what the send endpoint answers. -/
def handleSendMessage (response : Reply (Envelope Message)) (st : State) : Outcome :=
  if ((trim st.newMessage == "") && st.attachedFile.isNone) || st.selectedUser.isNone then
    { state := st, events := [Event.preventDefault] }
  else
    match st.selectedUser with
    | none => { state := st, events := [Event.preventDefault] }
    | some selectedUser =>
      let st1 : State := { st with uploadingFile := true }
      let request : Request :=
        match st.attachedFile with
        | some file =>
          Request.sendFile selectedUser._id
            (if trim st.newMessage == "" then none else some (trim st.newMessage)) file
        | none => Request.send selectedUser._id (trim st.newMessage)
      let tried : Outcome :=
        match response with
        | Reply.answered body =>
          if body.success then
            { state := { st1 with messages := st.messages ++ [body.data], newMessage := "",
                                  attachedFile := none },
              events := [Event.resetFileInput, Event.scrollToBottom] }
          else
            { state := st1, events := [] }
        | Reply.failed _ =>
          { state := st1,
            events := [Event.consoleError "Error sending message:",
                       Event.toastError "Failed to send message"] }
      { state := { tried.state with uploadingFile := false },
        events := [Event.preventDefault, Event.request request] ++ tried.events }

/-! ## The thread fetch and poll (lines 135-163) -/

/-- The `try` block of `fetchMessages` as the closure that holds `selectedUser` runs
it on the state current when the reply arrives.  `Except.error` is an awaited request
that rejects; it carries the state and the events reached at that point. -/
def fetchMessagesTry (isInitialFetch : Bool) (selectedUser : User)
    (response : Reply (Envelope (List Message))) (readResponse : Reply Unit) (st : State) :
    Except Outcome Outcome :=
  match response with
  | Reply.failed _ =>
    Except.error { state := st, events := [Event.request (Request.getMessages selectedUser._id)] }
  | Reply.answered body =>
    if body.success then
      let messages := body.data
      let st1 : State := { st with messages := messages }
      let later : List Event := if isInitialFetch then [Event.scrollToBottomAfter 100] else []
      if messages.length > 0 then
        match readResponse with
        | Reply.failed _ =>
          Except.error
            { state := st1,
              events := [Event.request (Request.getMessages selectedUser._id),
                         Event.request (Request.markRead selectedUser._id)] }
        | Reply.answered _ =>
          Except.ok
            { state := st1,
              events := [Event.request (Request.getMessages selectedUser._id),
                         Event.request (Request.markRead selectedUser._id)] ++ later }
      else
        Except.ok
          { state := st1,
            events := [Event.request (Request.getMessages selectedUser._id)] ++ later }
    else
      Except.ok { state := st, events := [Event.request (Request.getMessages selectedUser._id)] }

/-- The `try` and `catch` of `fetchMessages` for the `selectedUser` of its closure. -/
def fetchMessagesFor (isInitialFetch : Bool) (selectedUser : User)
    (response : Reply (Envelope (List Message))) (readResponse : Reply Unit) (st : State) :
    Outcome :=
  match fetchMessagesTry isInitialFetch selectedUser response readResponse st with
  | Except.ok o => o
  | Except.error o =>
    { state := o.state,
      events := o.events ++ [Event.consoleError "Error fetching messages:",
                             Event.toastError "Failed to load messages"] }

/-- The function `fetchMessages`, run to completion on the state that holds the
selected user. -/
def fetchMessages (isInitialFetch : Bool) (response : Reply (Envelope (List Message)))
    (readResponse : Reply Unit) (st : State) : Outcome :=
  match st.selectedUser with
  | none => { state := st, events := [] }
  | some selectedUser => fetchMessagesFor isInitialFetch selectedUser response readResponse st

/-- The handler `handleSelectUser` (lines 325-330). -/
def handleSelectUser (user : User) (st : State) : State :=
  let st1 : State := { st with selectedUser := some user }
  if st.isMobileView then { st1 with showChat := true } else st1

/-! ## Thread fetches that overlap a change of the selected user -/

/-- The component together with the thread fetches that were issued and are not yet
answered; each is the `isInitialFetch` and the `selectedUser` its closure holds. -/
structure Session where
  state : State
  inFlight : List (Bool × User)
deriving DecidableEq, Repr

/-- What can happen to the thread view, one at a time. -/
inductive ThreadEvent where
  | select (user : User) : ThreadEvent
  | issue (isInitialFetch : Bool) : ThreadEvent
  | answer (isInitialFetch : Bool) (user : User) (response : Reply (Envelope (List Message)))
      (readResponse : Reply Unit) : ThreadEvent
deriving DecidableEq, Repr

/-- One event: `select` is `handleSelectUser`; `issue` is the effect or its interval
calling `fetchMessages`, which sends the request for the user selected now; `answer`
delivers the reply to a request that is in flight and runs the rest of that call. -/
def Session.step (s : Session) : ThreadEvent → Option Session
  | ThreadEvent.select user => some { s with state := handleSelectUser user s.state }
  | ThreadEvent.issue isInitialFetch =>
    match s.state.selectedUser with
    | none => some s
    | some selectedUser => some { s with inFlight := s.inFlight ++ [(isInitialFetch, selectedUser)] }
  | ThreadEvent.answer isInitialFetch user response readResponse =>
    if (isInitialFetch, user) ∈ s.inFlight then
      some { state := (fetchMessagesFor isInitialFetch user response readResponse s.state).state,
             inFlight := s.inFlight.erase (isInitialFetch, user) }
    else none

/-- A sequence of events, from the first; `none` when one of them cannot happen. -/
def Session.run (s : Session) : List ThreadEvent → Option Session
  | [] => some s
  | e :: es =>
    match s.step e with
    | some s1 => s1.run es
    | none => none

/-- Every `select` of the sequence happens while no thread fetch is in flight. -/
def Session.selectsWhenIdle (s : Session) : List ThreadEvent → Bool
  | [] => true
  | e :: es =>
    (match e with
      | ThreadEvent.select _ => s.inFlight.isEmpty
      | _ => true) &&
    (match s.step e with
      | some s1 => s1.selectsWhenIdle es
      | none => true)

/-- Every thread fetch in flight was issued for the user who is selected. -/
def Session.InFlightForSelected (s : Session) : Prop :=
  ∀ e ∈ s.inFlight, s.state.selectedUser = some e.2

/-! ## Message requests (lines 404-430) -/

/-- The `try` block of `handleAcceptRequest`.  The name
`fetchConversationsAndConnections` it calls after a successful reply is a `const` of the
callback of the effect at line 173; the handler is declared in the body of the
component, where that name is not in scope, so evaluating it throws a ReferenceError. -/
def handleAcceptRequestTry (requestId : String) (response : Reply (Envelope Unit)) (st : State) :
    Except Outcome Outcome :=
  match response with
  | Reply.failed _ =>
    Except.error { state := st, events := [Event.request (Request.acceptRequest requestId)] }
  | Reply.answered body =>
    if body.success then
      Except.error
        { state := { st with messageRequestStatus := none },
          events := [Event.request (Request.acceptRequest requestId),
                     Event.toastSuccess "Message request accepted"] }
    else
      Except.ok { state := st, events := [Event.request (Request.acceptRequest requestId)] }

/-- The handler `handleAcceptRequest`. -/
def handleAcceptRequest (requestId : String) (response : Reply (Envelope Unit)) (st : State) :
    Outcome :=
  match handleAcceptRequestTry requestId response st with
  | Except.ok o => o
  | Except.error o =>
    { state := o.state,
      events := o.events ++ [Event.consoleError "Error accepting request:",
                             Event.toastError "Failed to accept request"] }

/-- The handler `handleRejectRequest`. -/
def handleRejectRequest (requestId : String) (response : Reply (Envelope Unit)) (st : State) :
    Outcome :=
  match response with
  | Reply.failed _ =>
    { state := st,
      events := [Event.request (Request.rejectRequest requestId),
                 Event.consoleError "Error rejecting request:",
                 Event.toastError "Failed to reject request"] }
  | Reply.answered body =>
    if body.success then
      { state := { st with messageRequestStatus := none },
        events := [Event.request (Request.rejectRequest requestId),
                   Event.toastSuccess "Message request rejected"] }
    else
      { state := st, events := [Event.request (Request.rejectRequest requestId)] }

/-! ## What the chat area renders (lines 627-653 and 723-766) -/

/-- The expression `messageRequestStatus?.hasRequest && !messageRequestStatus?.canMessage`. -/
def gateClosed (messageRequestStatus : Option RequestStatus) : Bool :=
  match messageRequestStatus with
  | none => false
  | some status => status.hasRequest && !status.canMessage

/-- The attribute `disabled` of the text input (line 733). -/
def textInputDisabled (st : State) : Bool :=
  st.uploadingFile || gateClosed st.messageRequestStatus

/-- The attribute `disabled` of the file input (line 741). -/
def fileInputDisabled (st : State) : Bool :=
  gateClosed st.messageRequestStatus

/-- The attribute `disabled` of the attach button (line 749). -/
def attachButtonDisabled (st : State) : Bool :=
  st.uploadingFile || gateClosed st.messageRequestStatus

/-- The attribute `disabled` of the send button (line 755). -/
def sendButtonDisabled (st : State) : Bool :=
  ((trim st.newMessage == "") && st.attachedFile.isNone) || st.uploadingFile ||
    gateClosed st.messageRequestStatus

/-- What the conditional of lines 627-653 puts above the messages. -/
inductive Banner where
  | acceptDecline : Banner
  | waiting : Banner
  | nothing : Banner
deriving DecidableEq, Repr

/-- The conditional of lines 627-653. -/
def requestBanner (messageRequestStatus : Option RequestStatus) : Banner :=
  match messageRequestStatus with
  | none => Banner.nothing
  | some status =>
    if status.hasRequest && !status.isSender then Banner.acceptDecline
    else if status.hasRequest && status.isSender then Banner.waiting
    else Banner.nothing

/-! ## The search (lines 270-284) -/

/-- The method `String.prototype.toLowerCase`, on the letters A to Z; other characters
are left as they are. -/
def toLowerCase (s : String) : String :=
  String.mk (s.data.map Char.toLower)

/-- Whether the second list of characters begins the first. -/
def startsWith : List Char → List Char → Bool
  | _, [] => true
  | [], _ :: _ => false
  | c :: cs, d :: ds => c == d && startsWith cs ds

/-- Whether the second list of characters occurs in the first. -/
def includesChars : List Char → List Char → Bool
  | [], searchString => startsWith [] searchString
  | c :: cs, searchString => startsWith (c :: cs) searchString || includesChars cs searchString

/-- The method `String.prototype.includes`. -/
def includes (s searchString : String) : Bool :=
  includesChars s.data searchString.data

/-- The predicate of the filter of the search effect. -/
def matchesSearch (searchQuery : String) (conversation : Conversation) : Bool :=
  let searchLower := toLowerCase searchQuery
  let nameLower := toLowerCase (conversation.user.name.getD "")
  let usernameLower := toLowerCase (conversation.user.username.getD "")
  let headlineLower := toLowerCase (conversation.user.headline.getD "")
  includes nameLower searchLower || includes usernameLower searchLower ||
    includes headlineLower searchLower

/-- The search effect, which React runs when `searchQuery` or `conversations` changed. -/
def searchEffect (st : State) : State :=
  { st with filteredConversations := st.conversations.filter (matchesSearch st.searchQuery) }

/-- The test `hasChanges` of the updaters: when it is false the updater returns `prev`,
the array React holds already, and the cell does not change. -/
def hasChanges (prev sortedConversations : List Conversation) : Bool :=
  JSON.stringify prev != JSON.stringify sortedConversations

/-- Whether a poll tick gives the cell `conversations` a new array. -/
def conversationsReplaced (conversationsResponse : Reply (Envelope (List Conversation)))
    (connectionsResponse : Reply (List User)) (st : State) : Bool :=
  match conversationsResponse, connectionsResponse with
  | Reply.answered body, Reply.answered connections =>
    body.success && hasChanges st.conversations (sortedConversations body.data connections)
  | _, _ => false

/-- A poll tick, with no user id in the URL, followed by the search effect when React
runs it again: its dependencies are `[searchQuery, conversations]`, and the tick does
not write `searchQuery`. -/
def pollTickRendered (conversationsResponse : Reply (Envelope (List Conversation)))
    (connectionsResponse : Reply (List User)) (st : State) : State :=
  let st1 := (pollTick none conversationsResponse connectionsResponse st).state
  if conversationsReplaced conversationsResponse connectionsResponse st then searchEffect st1
  else st1

/-! ## File sizes (lines 440-444) -/

/-- Ten times the number `(num / den).toFixed(1)` prints: the tenth nearest to
`num / den`, the larger one on a tie.  For a byte count below 2^53 and `den` 1024 or
1048576 the quotient is exact in binary64, and `toFixed` rounds the exact value of its
argument. -/
def roundedTenths (num den : Nat) : Nat :=
  (20 * num + den) / (2 * den)

/-- The text of `(num / den).toFixed(1)`. -/
def toFixed1 (num den : Nat) : List Char :=
  decimal (roundedTenths num den / 10) ++ '.' :: decimal (roundedTenths num den % 10)

/-- The function `formatFileSize` on a non-negative integer byte count. -/
def formatFileSize (bytes : Nat) : String :=
  if bytes < 1024 then String.mk (decimal bytes ++ [' ', 'B'])
  else if bytes < 1048576 then String.mk (toFixed1 bytes 1024 ++ [' ', 'K', 'B'])
  else String.mk (toFixed1 bytes 1048576 ++ [' ', 'M', 'B'])

/-! ## The bubble of a message (lines 14-67 and 655-699) -/

/-- Truthiness of a string field that may be missing: present and not empty. -/
def truthy : Option String → Bool
  | some s => s != ""
  | none => false

/-- The avatar in the header of a shared-post preview. -/
inductive Avatar where
  | picture (src : String) : Avatar
  | initial (text : String) : Avatar
deriving DecidableEq, Repr

/-- What `SharedPostPreview` renders for a post. -/
structure PostPreview where
  avatar : Avatar
  label : String
  image : Option String
  content : Option String
  likes : Nat
  comments : Nat
deriving DecidableEq, Repr

/-- The component `SharedPostPreview`: `null` without a post. -/
def SharedPostPreview (post : Option Post) : Option PostPreview :=
  match post with
  | none => none
  | some post =>
    some
      { avatar :=
          if truthy post.authorProfilePicture then
            Avatar.picture (post.authorProfilePicture.getD "")
          else
            Avatar.initial
              (match (post.authorName.getD "").data with
               | c :: _ => String.singleton c
               | [] => "U"),
        label :=
          if truthy post.authorUsername then post.authorUsername.getD ""
          else if truthy post.authorName then post.authorName.getD ""
          else "Unknown",
        image := if truthy post.image then post.image else none,
        content := if truthy post.content then post.content else none,
        likes := post.likes,
        comments := post.comments }

/-- The children of the bubble of a message. -/
inductive BubbleElement where
  | attachmentLink (href : String) (fileName : Option String) (fileSize : Option Nat) :
      BubbleElement
  | sharedPostPreview (preview : PostPreview) : BubbleElement
  | paragraph (content : String) : BubbleElement
  | timestamp (createdAt : Int) : BubbleElement
deriving DecidableEq, Repr

/-- The children above the timestamp: the three conditional expressions of lines
669-687, in order. -/
def messageBody (message : Message) : List BubbleElement :=
  (if truthy message.fileUrl then
      [BubbleElement.attachmentLink (message.fileUrl.getD "") message.fileName message.fileSize]
    else []) ++
  (match message.sharedPost with
    | some post => (SharedPostPreview (some post)).toList.map BubbleElement.sharedPostPreview
    | none => []) ++
  (if truthy message.content && message.sharedPost.isNone then
      [BubbleElement.paragraph (message.content.getD "")]
    else [])

/-- The bubble of a message: its body and, last, the time of the message. -/
def messageBubble (message : Message) : List BubbleElement :=
  messageBody message ++ [BubbleElement.timestamp message.createdAt]

/-! ## Opening the page at a deep link

The profile requests of the deep link stay in flight while React renders, and the URL
effect has `conversations` among its dependencies. -/

/-- Which of the two functions asked for a profile. -/
inductive Caller where
  | initialFetch : Caller
  | urlEffect : Caller
deriving DecidableEq, Repr

/-- The page while it loads: its state, whether the two list requests of the initial
fetch are unanswered, the profile requests in flight, and the events so far. -/
structure Page where
  state : State
  listsPending : Bool
  inFlight : List Caller
  events : List Event
deriving DecidableEq, Repr

/-- The page after its first render: the URL effect found an empty list and did
nothing, the initial fetch issued its two list requests. -/
def Page.mount : Page :=
  { state := State.initial, listsPending := true, inFlight := [], events := [] }

/-- What React does after a commit: when `conversations` is a new array the URL effect
runs on the new render, and may leave a profile request in flight. -/
def Page.commit (urlUserId : Option String) (conversationsChanged : Bool) (p : Page) : Page :=
  if conversationsChanged then
    { state := (urlEffect urlUserId p.state).1.state,
      listsPending := p.listsPending,
      inFlight := p.inFlight ++
        (match (urlEffect urlUserId p.state).2 with
          | some _ => [Caller.urlEffect]
          | none => []),
      events := p.events ++ (urlEffect urlUserId p.state).1.events }
  else p

/-- A reply that reaches the page. -/
inductive PageEvent where
  | listsAnswered (conversationsResponse : Reply (Envelope (List Conversation)))
      (connectionsResponse : Reply (List User)) : PageEvent
  | profileAnswered (caller : Caller) (response : Reply (Envelope User)) : PageEvent
deriving DecidableEq, Repr

/-- One reply: the function that awaited it resumes on the current state, then React
commits.  `none` when no such request is in flight. -/
def Page.step (urlUserId : Option String) (p : Page) : PageEvent → Option Page
  | PageEvent.listsAnswered conversationsResponse connectionsResponse =>
    if p.listsPending then
      some (Page.commit urlUserId
        (conversationsReplaced conversationsResponse connectionsResponse p.state)
        { state := (fetchConversationsAndConnectionsStart true urlUserId conversationsResponse
            connectionsResponse p.state).1.state,
          listsPending := false,
          inFlight := p.inFlight ++
            (match (fetchConversationsAndConnectionsStart true urlUserId conversationsResponse
                connectionsResponse p.state).2 with
              | some _ => [Caller.initialFetch]
              | none => []),
          events := p.events ++ (fetchConversationsAndConnectionsStart true urlUserId
            conversationsResponse connectionsResponse p.state).1.events })
    else none
  | PageEvent.profileAnswered caller response =>
    if caller ∈ p.inFlight then
      let o : Outcome :=
        match caller with
        | Caller.initialFetch => fetchConversationsAndConnectionsResume response p.state
        | Caller.urlEffect => fetchUserAndSetSelectedResume response p.state
      let conversationsChanged : Bool :=
        match response with
        | Reply.answered body => body.success
        | Reply.failed _ => false
      some (Page.commit urlUserId conversationsChanged
        { state := o.state,
          listsPending := p.listsPending,
          inFlight := p.inFlight.erase caller,
          events := p.events ++ o.events })
    else none

/-- A sequence of replies, from the first; `none` when one of them has no request. -/
def Page.run (urlUserId : Option String) (p : Page) : List PageEvent → Option Page
  | [] => some p
  | e :: es =>
    match Page.step urlUserId p e with
    | some p1 => Page.run urlUserId p1 es
    | none => none

/-! ## Arrays by reference -/

/-- An array as a cell of React state holds it: React compares the cell by reference,
so the array is known by its identity as well as by its elements. -/
structure ArrayRef where
  ref : Nat
  elements : List Conversation
deriving DecidableEq, Repr

/-- The updater of lines 212-215 on arrays by reference: `sortedConversations` is the
array the fetch has just built, `prev` the array the cell holds. -/
def conversationsUpdater (sortedConversations prev : ArrayRef) : ArrayRef :=
  if hasChanges prev.elements sortedConversations.elements then sortedConversations else prev

/-! ## Example values -/

/-- A user named Alice. -/
def alice : User := { _id := "a", name := some "Alice", username := some "alice", headline := none }

/-- A user named Bob. -/
def bob : User := { _id := "b", name := some "Bob", username := some "bob", headline := none }

/-- A user named Carol, with whom there is no conversation yet. -/
def carol : User := { _id := "c", name := some "Carol", username := some "carol", headline := none }

/-- A conversation with Alice, last message at time 5. -/
def aliceConversation : Conversation :=
  { user := alice, lastMessage := some ⟨some "hi", none, 5⟩, unreadCount := 2 }

/-- A conversation with Bob, last message at time 3. -/
def bobConversation : Conversation :=
  { user := bob, lastMessage := some ⟨some "yo", none, 3⟩, unreadCount := 0 }

/-- A message of the thread with Alice. -/
def helloFromAlice : Message :=
  { _id := "m1", sender := "a", content := some "hello", fileUrl := none, fileName := none,
    fileSize := none, sharedPost := none, createdAt := 5 }

/-- The page after loading, with both conversations, Alice selected and the draft "hi". -/
def chatWithAlice : State :=
  { State.initial with
    conversations := [aliceConversation, bobConversation],
    filteredConversations := [aliceConversation, bobConversation],
    selectedUser := some alice, newMessage := "hi", loading := false }

/-- The page of `chatWithAlice` after "ali" was typed into the search box and the search
effect ran. -/
def searchingAli : State :=
  { chatWithAlice with searchQuery := "ali", filteredConversations := [aliceConversation] }

end MessagesPage

/-! # The socket module, `frontend/src/socket/socket.js` -/

namespace Socket

/-- The module variable `socket` together with what the module did with the socket.io
client: a socket is known by the number of calls of `io` before the one that made it. -/
structure Module where
  socket : Option Nat
  created : Nat
  handlers : List (Nat × String)
  disconnected : List Nat
deriving DecidableEq, Repr

/-- The module when it is loaded: `let socket = null`. -/
def Module.initial : Module :=
  { socket := none, created := 0, handlers := [], disconnected := [] }

/-- The function `initSocket`; it returns the value of `socket`. -/
def initSocket (m : Module) : Option Nat × Module :=
  match m.socket with
  | none =>
    let s := m.created
    let m1 : Module :=
      { socket := some s,
        created := m.created + 1,
        handlers := m.handlers ++ [(s, "connect"), (s, "connect_error"), (s, "disconnect")],
        disconnected := m.disconnected }
    (m1.socket, m1)
  | some _ => (m.socket, m)

/-- The function `getSocket`. -/
def getSocket (m : Module) : Option Nat × Module :=
  match m.socket with
  | none => initSocket m
  | some _ => (m.socket, m)

/-- The function `disconnectSocket`. -/
def disconnectSocket (m : Module) : Module :=
  match m.socket with
  | some s => { m with disconnected := m.disconnected ++ [s], socket := none }
  | none => m

/-- A call of one of the three exported functions. -/
inductive Call where
  | initSocket : Call
  | getSocket : Call
  | disconnectSocket : Call
deriving DecidableEq, Repr

/-- The module after a call. -/
def Module.call (m : Module) : Call → Module
  | Call.initSocket => (initSocket m).2
  | Call.getSocket => (getSocket m).2
  | Call.disconnectSocket => disconnectSocket m

/-- The module after a sequence of calls, from the first. -/
def Module.run (m : Module) (calls : List Call) : Module :=
  calls.foldl Module.call m

/-- What holds of the module whatever was called: every socket made so far is the one
held or was disconnected, the socket held was made and not disconnected, no socket was
disconnected twice, and every socket made has each of its three handlers once. -/
def Module.Valid (m : Module) : Prop :=
  (∀ s, s < m.created → m.socket = some s ∨ s ∈ m.disconnected) ∧
  (∀ s, m.socket = some s → s < m.created ∧ s ∉ m.disconnected) ∧
  (∀ s ∈ m.disconnected, s < m.created) ∧
  m.disconnected.Nodup ∧
  (∀ s event, (s, event) ∈ m.handlers → s < m.created) ∧
  (∀ s, s < m.created → ∀ event ∈ ["connect", "connect_error", "disconnect"],
    m.handlers.count (s, event) = 1)

end Socket

/-! # The auth router, `backend/routes/auth.route.js` -/

namespace AuthRoute

/-- The HTTP methods the router registers. -/
inductive Method where
  | get : Method
  | post : Method
  | put : Method
deriving DecidableEq, Repr

/-- The handlers the file imports: the controllers and the middleware. -/
inductive Handler where
  | signup : Handler
  | login : Handler
  | logout : Handler
  | getMe : Handler
  | forgotPassword : Handler
  | resetPassword : Handler
  | updateAccountType : Handler
  | protectRoute : Handler
deriving DecidableEq, Repr

/-- One registration `router.METHOD(path, ...handlers)`. -/
structure Route where
  method : Method
  path : String
  handlers : List Handler
deriving DecidableEq, Repr

/-- The registrations of lines 8-23, in order. -/
def router : List Route :=
  [ { method := Method.post, path := "/signup", handlers := [Handler.signup] },
    { method := Method.post, path := "/login", handlers := [Handler.login] },
    { method := Method.post, path := "/logout", handlers := [Handler.logout] },
    { method := Method.get, path := "/me", handlers := [Handler.protectRoute, Handler.getMe] },
    { method := Method.post, path := "/forgot-password", handlers := [Handler.forgotPassword] },
    { method := Method.post, path := "/reset-password", handlers := [Handler.resetPassword] },
    { method := Method.put, path := "/update-account-type",
      handlers := [Handler.protectRoute, Handler.updateAccountType] } ]

/-- The handlers registered for a method and a path, those of the first registration
first. -/
def handlersFor (method : Method) (path : String) : List Handler :=
  (router.filter (fun route => route.method == method && route.path == path)).flatMap
    (fun route => route.handlers)

/-- The handlers Express calls, in order: the next one is called only when the one
before it called `next()`. -/
def reached (callsNext : Handler → Bool) : List Handler → List Handler
  | [] => []
  | handler :: rest => handler :: (if callsNext handler then reached callsNext rest else [])

/-- The handlers called for a request, given which handlers pass it on. -/
def handle (callsNext : Handler → Bool) (method : Method) (path : String) : List Handler :=
  reached callsNext (handlersFor method path)

end AuthRoute

namespace MessagesPage

/-! ## JSON.stringify is injective -/

theorem quoteBody_selfDelimiting : SelfDelimiting quoteBody := by
  intro s
  induction s with
  | nil =>
    intro s' r r' h
    cases s' with
    | nil => simpa [quoteBody] using h
    | cons c' cs' =>
      exfalso
      simp only [quoteBody, escapeChar] at h
      split_ifs at h with h1 h2
      · simp at h
      · simp at h
      · simp only [List.cons_append, List.nil_append, List.cons.injEq] at h
        exact h1 h.1.symm
  | cons c cs ih =>
    intro s' r r' h
    cases s' with
    | nil =>
      exfalso
      simp only [quoteBody, escapeChar] at h
      split_ifs at h with h1 h2
      · simp at h
      · simp at h
      · simp only [List.cons_append, List.nil_append, List.cons.injEq] at h
        exact h1 h.1
    | cons c' cs' =>
      simp only [quoteBody, escapeChar, List.append_assoc] at h
      split_ifs at h with h1 h2 h3 h4 h5 h6 <;>
        simp only [List.cons_append, List.nil_append, List.cons.injEq, true_and] at h
      all_goals first
        | (obtain ⟨rfl, h⟩ := h; obtain ⟨rfl, rfl⟩ := ih _ _ _ h; exact ⟨rfl, rfl⟩)
        | (obtain ⟨rfl, rfl⟩ := ih _ _ _ h; subst_vars; exact ⟨rfl, rfl⟩)
        | (exfalso; exact absurd h.1 (by decide))
        | (exfalso; obtain ⟨rfl, _⟩ := h; simp_all)


theorem quote_selfDelimiting : SelfDelimiting quote := by
  intro s s' r r' h
  simp only [quote, List.cons_append, List.cons.injEq, true_and] at h
  obtain ⟨hs, hr⟩ := quoteBody_selfDelimiting _ _ _ _ h
  exact ⟨String.ext hs, hr⟩

theorem span_unique (p : Char → Bool) :
    ∀ (xs xs' : List Char) (y y' : Char) (r r' : List Char),
      (∀ x ∈ xs, p x = true) → (∀ x ∈ xs', p x = true) → p y = false → p y' = false →
      xs ++ y :: r = xs' ++ y' :: r' → xs = xs' ∧ y = y' ∧ r = r' := by
  intro xs
  induction xs with
  | nil =>
    intro xs' y y' r r' _ hx' hy hy' h
    cases xs' with
    | nil => simpa using h
    | cons x' t' =>
      exfalso
      simp only [List.nil_append, List.cons_append, List.cons.injEq] at h
      have := hx' x' (by simp)
      rw [← h.1, hy] at this
      exact Bool.false_ne_true this
  | cons x t ih =>
    intro xs' y y' r r' hx hx' hy hy' h
    cases xs' with
    | nil =>
      exfalso
      simp only [List.nil_append, List.cons_append, List.cons.injEq] at h
      have := hx x (by simp)
      rw [h.1, hy'] at this
      exact Bool.false_ne_true this
    | cons x' t' =>
      simp only [List.cons_append, List.cons.injEq] at h
      obtain ⟨rfl, h⟩ := h
      obtain ⟨rfl, rfl, rfl⟩ := ih t' y y' r r' (fun z hz => hx z (by simp [hz]))
        (fun z hz => hx' z (by simp [hz])) hy hy' h
      exact ⟨rfl, rfl, rfl⟩

theorem digitChar_isDigit : ∀ d : Nat, d < 10 → (Nat.digitChar d).isDigit = true := by
  decide

theorem digitChar_injOn : ∀ d : Nat, d < 10 → ∀ e : Nat, e < 10 →
    Nat.digitChar d = Nat.digitChar e → d = e := by
  decide

theorem map_digitChar_inj : ∀ (l l' : List Nat), (∀ d ∈ l, d < 10) → (∀ d ∈ l', d < 10) →
    l.map Nat.digitChar = l'.map Nat.digitChar → l = l' := by
  intro l
  induction l with
  | nil =>
    intro l' _ _ h
    cases l' with
    | nil => rfl
    | cons _ _ => simp at h
  | cons d t ih =>
    intro l' hl hl' h
    cases l' with
    | nil => simp at h
    | cons d' t' =>
      simp only [List.map_cons, List.cons.injEq] at h
      have hd := digitChar_injOn d (hl d (by simp)) d' (hl' d' (by simp)) h.1
      have ht := ih t' (fun z hz => hl z (by simp [hz])) (fun z hz => hl' z (by simp [hz])) h.2
      rw [hd, ht]


theorem decimal_eq (n : Nat) : decimal n = (decimalDigits n).map Nat.digitChar := by
  unfold decimal decimalDigits
  split_ifs <;> rfl

theorem decimalDigits_lt (n : Nat) : ∀ d ∈ decimalDigits n, d < 10 := by
  intro d hd
  unfold decimalDigits at hd
  split_ifs at hd with h
  · simp at hd; omega
  · rw [List.mem_reverse] at hd
    exact Nat.digits_lt_base (by norm_num) hd

theorem decimalDigits_injective (n n' : Nat) (h : decimalDigits n = decimalDigits n') :
    n = n' := by
  have key : ∀ m : Nat, m ≠ 0 → (Nat.digits 10 m).reverse ≠ [0] := by
    intro m hm hrev
    have h1 : Nat.digits 10 m = [0] := by
      have := congrArg List.reverse hrev
      simpa using this
    have h2 := Nat.getLast_digit_ne_zero 10 hm
    simp [h1] at h2
  unfold decimalDigits at h
  split_ifs at h with h0 h0' h0'
  · rw [h0, h0']
  · exact absurd h.symm (key n' h0')
  · exact absurd h (key n h0)
  · exact (Nat.digits_inj_iff).1 (List.reverse_injective h)

theorem decimal_injective (n n' : Nat) (h : decimal n = decimal n') : n = n' := by
  rw [decimal_eq, decimal_eq] at h
  exact decimalDigits_injective n n'
    (map_digitChar_inj _ _ (decimalDigits_lt n) (decimalDigits_lt n') h)

theorem decimal_isDigit (n : Nat) : ∀ c ∈ decimal n, c.isDigit = true := by
  intro c hc
  rw [decimal_eq, List.mem_map] at hc
  obtain ⟨d, hd, rfl⟩ := hc
  exact digitChar_isDigit d (decimalDigits_lt n d hd)

theorem decimal_ne_nil (n : Nat) : decimal n ≠ [] := by
  unfold decimal
  split_ifs with h
  · simp
  · simpa using Nat.digits_ne_nil_iff_ne_zero.2 h

/-- A number followed by the closing brace of its object determines the number. -/
theorem decimal_closed (n n' : Nat) (r r' : List Char)
    (h : decimal n ++ '\x7d' :: r = decimal n' ++ '\x7d' :: r') : n = n' ∧ r = r' := by
  obtain ⟨h1, _, h3⟩ := span_unique Char.isDigit _ _ _ _ _ _ (decimal_isDigit n)
    (decimal_isDigit n') (by decide) (by decide) h
  exact ⟨decimal_injective n n' h1, h3⟩

theorem intChars_closed (i i' : Int) (r r' : List Char)
    (h : intChars i ++ '\x7d' :: r = intChars i' ++ '\x7d' :: r') : i = i' ∧ r = r' := by
  have hhead : ∀ (n : Nat) (t s : List Char), decimal n ++ t ≠ '-' :: s := by
    intro n t s hEq
    cases hd : decimal n with
    | nil => exact decimal_ne_nil n hd
    | cons c cs =>
      have hc := decimal_isDigit n c (by simp [hd])
      rw [hd] at hEq
      simp only [List.cons_append, List.cons.injEq] at hEq
      rw [hEq.1] at hc
      exact absurd hc (by decide)
  unfold intChars at h
  split_ifs at h with hi hi' hi'
  · simp only [List.cons_append, List.cons.injEq, true_and] at h
    obtain ⟨hn, hr⟩ := decimal_closed _ _ _ _ h
    exact ⟨by omega, hr⟩
  · exact absurd h.symm (hhead _ _ _)
  · exact absurd h (hhead _ _ _)
  · obtain ⟨hn, hr⟩ := decimal_closed _ _ _ _ h
    exact ⟨by omega, hr⟩


theorem orNull_selfDelimiting {α : Type} (enc : α → List Char) (hsd : SelfDelimiting enc)
    (hhead : ∀ a, ∃ c t, enc a = c :: t ∧ c ≠ 'n') : SelfDelimiting (orNull enc) := by
  intro a a' r r' h
  cases a with
  | none =>
    cases a' with
    | none => simpa [orNull] using h
    | some b' =>
      exfalso
      obtain ⟨c, t, hc, hne⟩ := hhead b'
      simp only [orNull, hc, List.cons_append, List.cons.injEq] at h
      exact hne h.1.symm
  | some b =>
    cases a' with
    | none =>
      exfalso
      obtain ⟨c, t, hc, hne⟩ := hhead b
      simp only [orNull, hc, List.cons_append, List.cons.injEq] at h
      exact hne h.1
    | some b' =>
      simp only [orNull] at h
      obtain ⟨rfl, hr⟩ := hsd _ _ _ _ h
      exact ⟨rfl, hr⟩

theorem orNull_quote_selfDelimiting : SelfDelimiting (orNull quote) :=
  orNull_selfDelimiting quote quote_selfDelimiting
    (fun a => ⟨'"', quoteBody a.data, rfl, by decide⟩)

theorem userJson_selfDelimiting : SelfDelimiting userJson := by
  intro u u' r r' h
  cases u
  cases u'
  simp only [userJson, List.cons_append, List.append_assoc, List.nil_append, List.cons.injEq,
    true_and] at h
  obtain ⟨h1, k1⟩ := quote_selfDelimiting _ _ _ _ (List.append_cancel_left h)
  obtain ⟨h2, k2⟩ := orNull_quote_selfDelimiting _ _ _ _ (List.append_cancel_left k1)
  obtain ⟨h3, k3⟩ := orNull_quote_selfDelimiting _ _ _ _ (List.append_cancel_left k2)
  obtain ⟨h4, k4⟩ := orNull_quote_selfDelimiting _ _ _ _ (List.append_cancel_left k3)
  simp only [List.cons.injEq, true_and] at k4
  simp only [User.mk.injEq]
  exact ⟨⟨h1, h2, h3, h4⟩, k4⟩

theorem lastMessageJson_selfDelimiting : SelfDelimiting lastMessageJson := by
  intro m m' r r' h
  cases m
  cases m'
  simp only [lastMessageJson, List.cons_append, List.append_assoc, List.nil_append,
    List.cons.injEq, true_and] at h
  obtain ⟨h1, k1⟩ := orNull_quote_selfDelimiting _ _ _ _ (List.append_cancel_left h)
  obtain ⟨h2, k2⟩ := orNull_quote_selfDelimiting _ _ _ _ (List.append_cancel_left k1)
  obtain ⟨h3, k3⟩ := intChars_closed _ _ _ _ (List.append_cancel_left k2)
  simp only [LastMessage.mk.injEq]
  exact ⟨⟨h1, h2, h3⟩, k3⟩

theorem conversationJson_selfDelimiting : SelfDelimiting conversationJson := by
  intro c c' r r' h
  cases c
  cases c'
  simp only [conversationJson, List.cons_append, List.append_assoc, List.nil_append,
    List.cons.injEq, true_and] at h
  obtain ⟨h1, k1⟩ := userJson_selfDelimiting _ _ _ _ (List.append_cancel_left h)
  obtain ⟨h2, k2⟩ := orNull_selfDelimiting lastMessageJson lastMessageJson_selfDelimiting
    (fun a => ⟨'\x7b', _, rfl, by decide⟩) _ _ _ _ (List.append_cancel_left k1)
  obtain ⟨h3, k3⟩ := decimal_closed _ _ _ _ (List.append_cancel_left k2)
  simp only [Conversation.mk.injEq]
  exact ⟨⟨h1, h2, h3⟩, k3⟩

theorem moreElements_selfDelimiting {α : Type} (enc : α → List Char)
    (hsd : SelfDelimiting enc) : SelfDelimiting (moreElements enc) := by
  intro l
  induction l with
  | nil =>
    intro l' r r' h
    cases l' with
    | nil => simpa [moreElements] using h
    | cons b' t' =>
      simp only [moreElements, List.cons_append, List.cons.injEq] at h
      exact absurd h.1 (by decide)
  | cons b t ih =>
    intro l' r r' h
    cases l' with
    | nil =>
      simp only [moreElements, List.cons_append, List.cons.injEq] at h
      exact absurd h.1 (by decide)
    | cons b' t' =>
      simp only [moreElements, List.cons_append, List.append_assoc, List.cons.injEq,
        true_and] at h
      obtain ⟨hb, k⟩ := hsd _ _ _ _ h
      obtain ⟨ht, hr⟩ := ih _ _ _ k
      exact ⟨by rw [hb, ht], hr⟩

theorem elements_selfDelimiting {α : Type} (enc : α → List Char) (hsd : SelfDelimiting enc)
    (hhead : ∀ a, ∃ c t, enc a = c :: t ∧ c ≠ ']') : SelfDelimiting (elements enc) := by
  intro l l' r r' h
  cases l with
  | nil =>
    cases l' with
    | nil => simpa [elements] using h
    | cons a' t' =>
      exfalso
      obtain ⟨c, t, hc, hne⟩ := hhead a'
      simp only [elements, hc, List.cons_append, List.cons.injEq] at h
      exact hne h.1.symm
  | cons a t =>
    cases l' with
    | nil =>
      exfalso
      obtain ⟨c, t, hc, hne⟩ := hhead a
      simp only [elements, hc, List.cons_append, List.cons.injEq] at h
      exact hne h.1
    | cons a' t' =>
      simp only [elements, List.append_assoc] at h
      obtain ⟨ha, k⟩ := hsd _ _ _ _ h
      obtain ⟨ht, hr⟩ := moreElements_selfDelimiting enc hsd _ _ _ _ k
      exact ⟨by rw [ha, ht], hr⟩

/-- Two conversation lists with the same JSON text are equal. -/
theorem stringify_injective (l l' : List Conversation)
    (h : JSON.stringify l = JSON.stringify l') : l = l' := by
  unfold JSON.stringify at h
  have h0 := congrArg String.data h
  have h1 : elements conversationJson l ++ [] = elements conversationJson l' ++ [] := by
    simpa using h0
  exact (elements_selfDelimiting conversationJson conversationJson_selfDelimiting
    (fun a => ⟨'\x7b', _, rfl, by decide⟩) _ _ _ _ h1).1

/-- The updater yields a list equal, as a value, to the new list. -/
theorem keepIfUnchanged_eq (next prev : List Conversation) :
    keepIfUnchanged next prev = next := by
  unfold keepIfUnchanged
  by_cases h : JSON.stringify prev = JSON.stringify next
  · simp [h, stringify_injective prev next h]
  · simp [h]

/-! ## Lemmas on the sort -/

theorem compareFn_le_zero_iff (a b : Conversation) :
    compareFn a b ≤ 0 ↔ sortTime b ≤ sortTime a := by
  unfold compareFn
  omega

theorem sort_perm {α : Type} (cmp : α → α → Int) (l : List α) : (sort cmp l).Perm l :=
  List.perm_insertionSort _ l

theorem sort_compareFn_sorted (l : List Conversation) :
    (sort compareFn l).Pairwise (fun a b => sortTime b ≤ sortTime a) := by
  have h : List.Sorted (fun a b => compareFn a b ≤ 0) (sort compareFn l) :=
    List.sorted_insertionSort _ l
  exact List.Pairwise.imp (fun {a b} hab => (compareFn_le_zero_iff a b).1 hab) h

/-- Stability: the entries with one sort time keep the order they had. -/
theorem sort_compareFn_stable (l : List Conversation) (t : Int) :
    (sort compareFn l).filter (fun c => sortTime c = t) = l.filter (fun c => sortTime c = t) := by
  have hsub : List.Sublist (l.filter (fun c => decide (sortTime c = t))) l := List.filter_sublist l
  have hpair : (l.filter (fun c => decide (sortTime c = t))).Pairwise
      (fun a b => compareFn a b ≤ 0) := by
    rw [List.pairwise_iff_forall_sublist]
    intro a b hab
    have ha : a ∈ l.filter (fun c => decide (sortTime c = t)) := hab.subset (by simp)
    have hb : b ∈ l.filter (fun c => decide (sortTime c = t)) := hab.subset (by simp)
    simp only [List.mem_filter, decide_eq_true_eq] at ha hb
    rw [compareFn_le_zero_iff, ha.2, hb.2]
  have h1 : List.Sublist (l.filter (fun c => decide (sortTime c = t))) (sort compareFn l) :=
    List.sublist_insertionSort hpair hsub
  have h2 : List.Sublist
      ((l.filter (fun c => decide (sortTime c = t))).filter (fun c => decide (sortTime c = t)))
      ((sort compareFn l).filter (fun c => decide (sortTime c = t))) := h1.filter _
  rw [List.filter_filter] at h2
  simp only [Bool.and_self] at h2
  have hlen : ((sort compareFn l).filter (fun c => decide (sortTime c = t))).length
      = (l.filter (fun c => decide (sortTime c = t))).length :=
    ((sort_perm compareFn l).filter _).length_eq
  exact (h2.eq_of_length hlen.symm).symm

theorem sortedConversations_perm (existing : List Conversation) (connections : List User) :
    (sortedConversations existing connections).Perm
      (existing ++ newConversations existing connections) :=
  sort_perm compareFn _

theorem mem_existingConversationUsers (existing : List Conversation) (id : String) :
    id ∈ existingConversationUsers existing ↔ ∃ conv ∈ existing, conv.user._id = id := by
  simp [existingConversationUsers]

theorem newConversations_eq (existing : List Conversation) (connections : List User) :
    newConversations existing connections =
      (connections.filter
        (fun connection => decide (connection._id ∉ existingConversationUsers existing))).map
        placeholder := by
  unfold newConversations
  congr 1
  apply List.filter_congr
  intro x _
  simp

/-! ## Lemmas on the handlers -/

theorem pollTick_state (urlUserId : Option String)
    (conversationsResponse : Reply (Envelope (List Conversation)))
    (connectionsResponse : Reply (List User)) (st : State) :
    (pollTick urlUserId conversationsResponse connectionsResponse st).state =
      match conversationsResponse, connectionsResponse with
      | Reply.answered body, Reply.answered connections =>
        if body.success then
          { st with
            conversations := keepIfUnchanged (sortedConversations body.data connections)
              st.conversations,
            filteredConversations := keepIfUnchanged (sortedConversations body.data connections)
              st.filteredConversations }
        else st
      | _, _ => st := by
  unfold pollTick fetchConversationsAndConnections fetchConversationsAndConnectionsStart
  cases conversationsResponse with
  | failed s => rfl
  | answered body =>
    cases connectionsResponse with
    | failed s => rfl
    | answered connections =>
      cases hs : body.success with
      | false => simp [hs]
      | true =>
        cases truthyId urlUserId <;> simp [hs]

theorem truthyId_some (userId : String) (hid : userId ≠ "") :
    truthyId (some userId) = some userId := by
  simp [truthyId, hid]

theorem truthyId_eq_some {o : Option String} {id : String} (h : truthyId o = some id) :
    o = some id := by
  cases o with
  | none => simp [truthyId] at h
  | some s =>
    simp only [truthyId] at h
    split_ifs at h
    simpa using h

theorem find?_id_eq_none (l : List Conversation) (userId : String) :
    l.find? (fun conv => conv.user._id == userId) = none ↔
      ¬ ∃ conv ∈ l, conv.user._id = userId := by
  simp [List.find?_eq_none]

theorem find?_id_eq_some (l : List Conversation) (userId : String) (conv : Conversation)
    (h : l.find? (fun conv => conv.user._id == userId) = some conv) :
    conv ∈ l ∧ conv.user._id = userId := by
  refine ⟨List.mem_of_find?_eq_some h, ?_⟩
  simpa using List.find?_some h

theorem sortedConversations_nodup (existing : List Conversation) (connections : List User)
    (he : (existing.map (fun conv => conv.user._id)).Nodup)
    (hc : (connections.map (fun connection => connection._id)).Nodup) :
    ((sortedConversations existing connections).map (fun conv => conv.user._id)).Nodup := by
  rw [((sortedConversations_perm existing connections).map _).nodup_iff, List.map_append,
    List.nodup_append]
  have hmap : (newConversations existing connections).map (fun conv => conv.user._id) =
      (connections.filter (fun connection =>
        decide (connection._id ∉ existingConversationUsers existing))).map
        (fun connection => connection._id) := by
    rw [newConversations_eq, List.map_map]
    rfl
  refine ⟨he, ?_, ?_⟩
  · rw [hmap]
    exact hc.sublist ((List.filter_sublist _).map _)
  · intro id h1 h2
    rw [hmap, List.mem_map] at h2
    obtain ⟨u, hu, rfl⟩ := h2
    have := (List.mem_filter.1 hu).2
    simp only [decide_eq_true_eq] at this
    exact this h1

theorem hasChanges_eq_true_iff (prev next : List Conversation) :
    hasChanges prev next = true ↔ prev ≠ next := by
  unfold hasChanges
  constructor
  · intro h heq
    rw [heq] at h
    simp at h
  · intro h
    have : JSON.stringify prev ≠ JSON.stringify next := fun hs => h (stringify_injective _ _ hs)
    simpa using this

theorem hasChanges_self (l : List Conversation) : hasChanges l l = false := by
  simp [hasChanges]

theorem fetchMessagesFor_state_of_failed (isInitialFetch : Bool) (selectedUser : User)
    (status : Option Nat) (readResponse : Reply Unit) (st : State) :
    fetchMessagesFor isInitialFetch selectedUser (Reply.failed status) readResponse st =
      { state := st,
        events := [Event.request (Request.getMessages selectedUser._id),
                   Event.consoleError "Error fetching messages:",
                   Event.toastError "Failed to load messages"] } := by
  simp [fetchMessagesFor, fetchMessagesTry]

theorem fetchMessagesFor_of_not_success (isInitialFetch : Bool) (selectedUser : User)
    (body : Envelope (List Message)) (hs : body.success = false) (readResponse : Reply Unit)
    (st : State) :
    fetchMessagesFor isInitialFetch selectedUser (Reply.answered body) readResponse st =
      { state := st, events := [Event.request (Request.getMessages selectedUser._id)] } := by
  simp [fetchMessagesFor, fetchMessagesTry, hs]

theorem fetchMessagesFor_requests (isInitialFetch : Bool) (selectedUser : User)
    (response : Reply (Envelope (List Message))) (readResponse : Reply Unit) (st : State) :
    (fetchMessagesFor isInitialFetch selectedUser response readResponse st).requests =
      match response with
      | Reply.failed _ => [Request.getMessages selectedUser._id]
      | Reply.answered body =>
        if body.success = true ∧ body.data ≠ [] then
          [Request.getMessages selectedUser._id, Request.markRead selectedUser._id]
        else [Request.getMessages selectedUser._id] := by
  cases response with
  | failed s => simp [fetchMessagesFor, fetchMessagesTry, Outcome.requests]
  | answered body =>
    cases hs : body.success with
    | false => simp [fetchMessagesFor, fetchMessagesTry, Outcome.requests, hs]
    | true =>
      cases hd : body.data with
      | nil =>
        cases isInitialFetch <;>
          simp [fetchMessagesFor, fetchMessagesTry, Outcome.requests, hs, hd]
      | cons m ms =>
        cases readResponse <;> cases isInitialFetch <;>
          simp [fetchMessagesFor, fetchMessagesTry, Outcome.requests, hs, hd]

theorem fetchMessagesFor_selectedUser (isInitialFetch : Bool) (user : User)
    (response : Reply (Envelope (List Message))) (readResponse : Reply Unit) (st : State) :
    (fetchMessagesFor isInitialFetch user response readResponse st).state.selectedUser =
      st.selectedUser := by
  cases response with
  | failed s => simp [fetchMessagesFor, fetchMessagesTry]
  | answered body =>
    cases hs : body.success with
    | false => simp [fetchMessagesFor, fetchMessagesTry, hs]
    | true =>
      cases hd : body.data with
      | nil => simp [fetchMessagesFor, fetchMessagesTry, hs, hd]
      | cons m ms => cases readResponse <;> simp [fetchMessagesFor, fetchMessagesTry, hs, hd]

theorem handleSelectUser_selectedUser (user : User) (st : State) :
    (handleSelectUser user st).selectedUser = some user := by
  unfold handleSelectUser
  split_ifs <;> rfl

theorem step_inFlightForSelected (s s1 : Session) (e : ThreadEvent)
    (hs : s.InFlightForSelected)
    (hidle : ∀ user, e = ThreadEvent.select user → s.inFlight = [])
    (hstep : s.step e = some s1) : s1.InFlightForSelected := by
  cases e with
  | select user =>
    simp only [Session.step, Option.some.injEq] at hstep
    subst hstep
    intro x hx
    simp only [hidle user rfl] at hx
    exact absurd hx (List.not_mem_nil x)
  | issue isInitialFetch =>
    simp only [Session.step] at hstep
    cases hsel : s.state.selectedUser with
    | none =>
      simp only [hsel, Option.some.injEq] at hstep
      subst hstep
      exact hs
    | some u =>
      simp only [hsel, Option.some.injEq] at hstep
      subst hstep
      intro x hx
      simp only [List.mem_append, List.mem_singleton] at hx
      rcases hx with hx | rfl
      · exact hs x hx
      · exact hsel
  | answer isInitialFetch user response readResponse =>
    simp only [Session.step] at hstep
    split_ifs at hstep with hmem
    simp only [Option.some.injEq] at hstep
    subst hstep
    intro x hx
    have hx' : x ∈ s.inFlight := List.mem_of_mem_erase hx
    simpa [fetchMessagesFor_selectedUser] using hs x hx'

theorem conversationsUpdater_elements (next prev : ArrayRef) :
    (conversationsUpdater next prev).elements = keepIfUnchanged next.elements prev.elements := by
  unfold conversationsUpdater keepIfUnchanged hasChanges
  by_cases h : (JSON.stringify prev.elements != JSON.stringify next.elements) = true
  · simp only [h, if_true]
  · simp only [h, if_false]
    rfl

theorem deepLink_lists_step :
    Page.step (some "c") Page.mount
        (PageEvent.listsAnswered (Reply.answered ⟨true, [aliceConversation]⟩) (Reply.answered [])) =
      some
        { state := { State.initial with conversations := [aliceConversation],
                                         filteredConversations := [aliceConversation] },
          listsPending := false,
          inFlight := [Caller.initialFetch, Caller.urlEffect],
          events := [Event.request Request.getConversations, Event.request Request.getConnections,
                     Event.request (Request.getUser "c"), Event.request (Request.getUser "c")] } := by
  have hsorted : sortedConversations [aliceConversation] [] = [aliceConversation] := by decide
  have hreplaced : conversationsReplaced (Reply.answered ⟨true, [aliceConversation]⟩)
      (Reply.answered []) State.initial = true := by
    simp only [conversationsReplaced, hsorted, Bool.true_and]
    rw [hasChanges_eq_true_iff]
    decide
  have hstart : fetchConversationsAndConnectionsStart true (some "c")
      (Reply.answered ⟨true, [aliceConversation]⟩) (Reply.answered []) State.initial =
        ({ state := { State.initial with conversations := [aliceConversation],
                                          filteredConversations := [aliceConversation] },
           events := [Event.request Request.getConversations,
                      Event.request Request.getConnections,
                      Event.request (Request.getUser "c")] }, some "c") := by
    have hfind : [aliceConversation].find? (fun conv => conv.user._id == "c") = none := by
      decide
    have htruthy : truthyId (some "c") = some "c" := by decide
    simp [fetchConversationsAndConnectionsStart, hsorted, keepIfUnchanged_eq, hfind, htruthy,
      State.initial]
  simp only [Page.step, Page.mount, if_true, hreplaced, hstart]
  decide

/-! ## Claims on the poll merge -/

/-- C1: on arrays by reference, the state updater of the conversation poll returns
`prev` itself when `prev` and the new array have equal JSON serialisations, which is
when their elements are equal, and returns the new array when the serialisations
differ; it returns nothing but one of the two; when the new array is another array
with equal elements, what it returns has the reference of `prev` and is not the new
array. -/
theorem C1_updater_returns_prev_itself (prev next : ArrayRef) :
    (JSON.stringify prev.elements = JSON.stringify next.elements →
      conversationsUpdater next prev = prev) ∧
    (JSON.stringify prev.elements ≠ JSON.stringify next.elements →
      conversationsUpdater next prev = next) ∧
    (conversationsUpdater next prev = prev ∨ conversationsUpdater next prev = next) ∧
    (JSON.stringify prev.elements = JSON.stringify next.elements ↔
      prev.elements = next.elements) ∧
    (prev.ref ≠ next.ref → prev.elements = next.elements →
      (conversationsUpdater next prev).ref = prev.ref ∧ conversationsUpdater next prev ≠ next) ∧
    (conversationsUpdater next prev).elements = keepIfUnchanged next.elements prev.elements := by
  have hkeep : JSON.stringify prev.elements = JSON.stringify next.elements →
      conversationsUpdater next prev = prev := by
    intro h
    simp [conversationsUpdater, hasChanges, h]
  have hreplace : JSON.stringify prev.elements ≠ JSON.stringify next.elements →
      conversationsUpdater next prev = next := by
    intro h
    simp [conversationsUpdater, hasChanges, h]
  refine ⟨hkeep, hreplace, ?_, ⟨stringify_injective _ _, fun h => by rw [h]⟩, ?_,
    conversationsUpdater_elements next prev⟩
  · by_cases h : JSON.stringify prev.elements = JSON.stringify next.elements
    · exact Or.inl (hkeep h)
    · exact Or.inr (hreplace h)
  · intro href hel
    have h := hkeep (by rw [hel])
    rw [h]
    refine ⟨rfl, ?_⟩
    intro heq
    exact href (by rw [heq])

/-- C2: a second poll tick with the same replies leaves the state the first tick
produced unchanged, and a tick answered with success holds the sorted list. -/
theorem C2_pollTick_idempotent (urlUserId : Option String)
    (conversationsResponse : Reply (Envelope (List Conversation)))
    (connectionsResponse : Reply (List User))
    (existing : List Conversation) (connections : List User) (st : State) :
    (pollTick urlUserId conversationsResponse connectionsResponse
        (pollTick urlUserId conversationsResponse connectionsResponse st).state).state =
      (pollTick urlUserId conversationsResponse connectionsResponse st).state ∧
    (pollTick urlUserId (Reply.answered ⟨true, existing⟩) (Reply.answered connections)
        st).state.conversations = sortedConversations existing connections ∧
    JSON.stringify (pollTick urlUserId (Reply.answered ⟨true, existing⟩)
        (Reply.answered connections) st).state.conversations =
      JSON.stringify (sortedConversations existing connections) := by
  refine ⟨?_, ?_, ?_⟩
  · rw [pollTick_state, pollTick_state]
    cases conversationsResponse with
    | failed s => rfl
    | answered body =>
      cases connectionsResponse with
      | failed s => rfl
      | answered connections =>
        cases hs : body.success with
        | false => simp [hs]
        | true => simp [hs, keepIfUnchanged_eq]
  · rw [pollTick_state]
    simp [keepIfUnchanged_eq]
  · rw [pollTick_state]
    simp [keepIfUnchanged_eq]

/-- C3: the counterpart ids of the list the poll builds are those of the server's
conversations together with the ids of the connections, and the list is the server's
conversations plus one placeholder for each connection whose id is not a counterpart
of a server conversation. -/
theorem C3_counterparts_union (existing : List Conversation) (connections : List User) :
    (∀ id : String,
      id ∈ (sortedConversations existing connections).map (fun conv => conv.user._id) ↔
        (id ∈ existing.map (fun conv => conv.user._id) ∨
          id ∈ connections.map (fun connection => connection._id))) ∧
    (sortedConversations existing connections).Perm
      (existing ++ (connections.filter (fun connection =>
        decide (connection._id ∉ existing.map (fun conv => conv.user._id)))).map placeholder) := by
  have hperm := sortedConversations_perm existing connections
  rw [newConversations_eq] at hperm
  refine ⟨?_, hperm⟩
  intro id
  rw [(hperm.map _).mem_iff]
  simp only [existingConversationUsers, List.map_append, List.mem_append, List.map_map,
    List.mem_map, List.mem_filter, decide_eq_true_eq, Function.comp, placeholder]
  constructor
  · rintro (h | ⟨u, ⟨hu, _⟩, rfl⟩)
    · exact Or.inl h
    · exact Or.inr ⟨u, hu, rfl⟩
  · rintro (h | ⟨u, hu, rfl⟩)
    · exact Or.inl h
    · by_cases hex : ∃ a ∈ existing, a.user._id = u._id
      · exact Or.inl hex
      · exact Or.inr ⟨u, ⟨hu, by simpa using hex⟩, rfl⟩

/-- C4 at the failing input: the page is opened at `?user=c`, the server lists the one
conversation with Alice and no connections, and answers both requests for the profile
of `c` with Carol, whose id is `c`.  The initial fetch and the URL effect each miss `c`
in the list they look at, each request the profile and each prepend a placeholder: the
list holds Carol twice, in whichever order the two replies arrive. -/
theorem C4_deep_link_adds_two_placeholders :
    ([aliceConversation].map (fun conv => conv.user._id)).Nodup ∧
    carol._id = "c" ∧
    (Page.run (some "c") Page.mount
      [PageEvent.listsAnswered (Reply.answered ⟨true, [aliceConversation]⟩) (Reply.answered []),
       PageEvent.profileAnswered Caller.initialFetch (Reply.answered ⟨true, carol⟩),
       PageEvent.profileAnswered Caller.urlEffect (Reply.answered ⟨true, carol⟩)]).map
        (fun p => p.state.conversations.map (fun conv => conv.user._id)) =
      some ["c", "c", "a"] ∧
    (Page.run (some "c") Page.mount
      [PageEvent.listsAnswered (Reply.answered ⟨true, [aliceConversation]⟩) (Reply.answered []),
       PageEvent.profileAnswered Caller.urlEffect (Reply.answered ⟨true, carol⟩),
       PageEvent.profileAnswered Caller.initialFetch (Reply.answered ⟨true, carol⟩)]).map
        (fun p => p.state.conversations.map (fun conv => conv.user._id)) =
      some ["c", "c", "a"] ∧
    ¬ (["c", "c", "a"] : List String).Nodup := by
  refine ⟨by decide, rfl, ?_, ?_, by decide⟩
  · simp only [Page.run, deepLink_lists_step]
    decide
  · simp only [Page.run, deepLink_lists_step]
    decide

/-- C5 (as amended): the sort yields a permutation of the merged list in descending
order of the sort time, which is `createdAt` for a conversation with a last message and
the epoch, 0, for one without; when every `createdAt` is after the epoch, no
conversation without a last message precedes one with a last message. -/
theorem C5_sort_descending (merged : List Conversation) :
    (sort compareFn merged).Perm merged ∧
    (sort compareFn merged).Pairwise (fun a b => sortTime b ≤ sortTime a) ∧
    (sort compareFn merged).Pairwise (fun a b => ∀ ma mb : LastMessage,
      a.lastMessage = some ma → b.lastMessage = some mb → mb.createdAt ≤ ma.createdAt) ∧
    ((∀ c ∈ merged, ∀ m : LastMessage, c.lastMessage = some m → 0 < m.createdAt) →
      (sort compareFn merged).Pairwise
        (fun a b => a.lastMessage = none → b.lastMessage = none)) := by
  have hsorted := sort_compareFn_sorted merged
  refine ⟨sort_perm compareFn merged, hsorted, ?_, ?_⟩
  · refine List.Pairwise.imp ?_ hsorted
    intro a b hab ma mb ha hb
    simpa [sortTime, ha, hb] using hab
  · intro hpos
    refine List.Pairwise.imp_of_mem ?_ hsorted
    intro a b _ hb hab ha
    cases hbm : b.lastMessage with
    | none => rfl
    | some m =>
      exfalso
      have hm := hpos b ((sort_perm compareFn merged).mem_iff.1 hb) m hbm
      simp only [sortTime, ha, hbm] at hab
      omega

/-- An instance of C5 with one message after the epoch and one connection never messaged. -/
theorem C5_sort_descending_witness :
    (sort compareFn
      [placeholder ⟨"b", none, none, none⟩,
       ⟨⟨"a", none, none, none⟩, some ⟨some "hi", none, 5⟩, 1⟩]).Pairwise
        (fun a b => a.lastMessage = none → b.lastMessage = none) :=
  (C5_sort_descending _).2.2.2 (by decide)

/-- C5 fails as stated: a message dated before the epoch sorts after a connection that
was never messaged. -/
theorem C5_counterexample :
    sortedConversations [⟨⟨"a", none, none, none⟩, some ⟨some "hi", none, -1⟩, 1⟩]
        [⟨"b", none, none, none⟩] =
      [placeholder ⟨"b", none, none, none⟩,
       ⟨⟨"a", none, none, none⟩, some ⟨some "hi", none, -1⟩, 1⟩] ∧
    ¬ (sortedConversations [⟨⟨"a", none, none, none⟩, some ⟨some "hi", none, -1⟩, 1⟩]
        [⟨"b", none, none, none⟩]).Pairwise
          (fun a b => a.lastMessage = none → b.lastMessage = none) := by
  decide

/-- C6 (as amended): conversations with equal sort times keep the order of the merged
list, the server's conversations in the server's order followed by the placeholders in
the order of the connection list. -/
theorem C6_ties_keep_merged_order (existing : List Conversation) (connections : List User)
    (t : Int) :
    (sortedConversations existing connections).filter (fun c => sortTime c = t) =
      existing.filter (fun c => sortTime c = t) ++
        (newConversations existing connections).filter (fun c => sortTime c = t) := by
  unfold sortedConversations allConversations
  rw [sort_compareFn_stable, List.filter_append]

/-- C6 fails as stated: the same two never-messaged connections are listed in the order
the connection list supplied them, whatever their ids. -/
theorem C6_counterexample :
    sortedConversations [] [⟨"a", none, none, none⟩, ⟨"b", none, none, none⟩] =
      [placeholder ⟨"a", none, none, none⟩, placeholder ⟨"b", none, none, none⟩] ∧
    sortedConversations [] [⟨"b", none, none, none⟩, ⟨"a", none, none, none⟩] =
      [placeholder ⟨"b", none, none, none⟩, placeholder ⟨"a", none, none, none⟩] ∧
    compareFn (placeholder ⟨"a", none, none, none⟩) (placeholder ⟨"b", none, none, none⟩) = 0 := by
  decide

/-- C7: the merged and sorted list is the server's conversations, each as the server
sent it, together with placeholders that have no last message and an unread count of
0, so the unread counts sum to the server's total; the list a successful poll tick
holds has the same sum. -/
theorem C7_unread_preserved (existing : List Conversation) (connections : List User)
    (urlUserId : Option String) (st : State) :
    (sortedConversations existing connections).Perm
      (existing ++ newConversations existing connections) ∧
    (∀ conv ∈ newConversations existing connections,
      conv.lastMessage = none ∧ conv.unreadCount = 0 ∧ conv.user ∈ connections) ∧
    ((sortedConversations existing connections).map (fun conv => conv.unreadCount)).sum =
      (existing.map (fun conv => conv.unreadCount)).sum ∧
    ((pollTick urlUserId (Reply.answered ⟨true, existing⟩) (Reply.answered connections)
        st).state.conversations.map (fun conv => conv.unreadCount)).sum =
      (existing.map (fun conv => conv.unreadCount)).sum := by
  have hperm := sortedConversations_perm existing connections
  have hnew : ∀ conv ∈ newConversations existing connections,
      conv.lastMessage = none ∧ conv.unreadCount = 0 ∧ conv.user ∈ connections := by
    intro conv hconv
    unfold newConversations at hconv
    rw [List.mem_map] at hconv
    obtain ⟨u, hu, rfl⟩ := hconv
    exact ⟨rfl, rfl, (List.mem_filter.1 hu).1⟩
  have hzero : ((newConversations existing connections).map
      (fun conv => conv.unreadCount)).sum = 0 := by
    apply List.sum_eq_zero
    intro n hn
    rw [List.mem_map] at hn
    obtain ⟨conv, hconv, rfl⟩ := hn
    exact (hnew conv hconv).2.1
  have hsum : ((sortedConversations existing connections).map
      (fun conv => conv.unreadCount)).sum = (existing.map (fun conv => conv.unreadCount)).sum := by
    rw [(hperm.map _).sum_eq, List.map_append, List.sum_append, hzero, Nat.add_zero]
  refine ⟨hperm, hnew, hsum, ?_⟩
  rw [pollTick_state]
  simpa [keepIfUnchanged_eq] using hsum

/-- C8 at the failing input, the one of C4: the profile fetch of the deep link to `c`
succeeds and Carol becomes the selected user, but two profile requests were issued and
the list is the list just fetched with two placeholders for Carol in front of it, not
one. -/
theorem C8_deep_link_fetches_twice :
    (Page.run (some "c") Page.mount
      [PageEvent.listsAnswered (Reply.answered ⟨true, [aliceConversation]⟩) (Reply.answered []),
       PageEvent.profileAnswered Caller.initialFetch (Reply.answered ⟨true, carol⟩),
       PageEvent.profileAnswered Caller.urlEffect (Reply.answered ⟨true, carol⟩)]).map
        (fun p => (p.state.selectedUser, p.state.conversations,
          Outcome.requests { state := p.state, events := p.events }, p.inFlight)) =
      some (some carol,
        [placeholder carol, placeholder carol, aliceConversation],
        [Request.getConversations, Request.getConnections, Request.getUser "c",
         Request.getUser "c"],
        []) ∧
    [placeholder carol, placeholder carol, aliceConversation] ≠
      placeholder carol :: [aliceConversation] := by
  refine ⟨?_, by decide⟩
  simp only [Page.run, deepLink_lists_step]
  decide

/-- C9: when the trimmed draft is empty and no file is attached, or when no user is
selected, `handleSendMessage` issues no request and leaves the whole state, so the
messages, the draft, the attached file and the uploading flag, as it was. -/
theorem C9_empty_message_rejected (response : Reply (Envelope Message)) (st : State)
    (h : (trim st.newMessage = "" ∧ st.attachedFile = none) ∨ st.selectedUser = none) :
    (handleSendMessage response st).state = st ∧
    (handleSendMessage response st).requests = [] ∧
    (handleSendMessage response st).state.messages = st.messages ∧
    (handleSendMessage response st).state.newMessage = st.newMessage ∧
    (handleSendMessage response st).state.attachedFile = st.attachedFile ∧
    (handleSendMessage response st).state.uploadingFile = st.uploadingFile := by
  have hout : handleSendMessage response st = { state := st, events := [Event.preventDefault] } := by
    unfold handleSendMessage
    rcases h with ⟨h1, h2⟩ | h3
    · simp [h1, h2]
    · simp [h3]
  rw [hout]
  simp [Outcome.requests]

/-- An instance of C9: a draft of blanks and a line break, no file attached. -/
theorem C9_empty_message_rejected_witness :
    (handleSendMessage (Reply.answered ⟨true, ⟨"m", "me", some "x", none, none, none, none, 7⟩⟩)
      { State.initial with newMessage := "  \n ",
                           selectedUser := some ⟨"a", none, none, none⟩ }).requests = [] :=
  (C9_empty_message_rejected _ _ (Or.inl ⟨by decide, rfl⟩)).2.1

/-- C10: the chosen file becomes the attached file exactly when its size is at most
10 * 1024 * 1024 bytes; a larger file is refused with an error notification and the
attached file stays what it was; with no file chosen nothing changes. -/
theorem C10_file_size_limit (file : File) (rest : List File) (st : State) :
    handleFileSelect [] st = { state := st, events := [] } ∧
    (file.size ≤ 10 * 1024 * 1024 →
      handleFileSelect (file :: rest) st =
        { state := { st with attachedFile := some file }, events := [] }) ∧
    (10 * 1024 * 1024 < file.size →
      handleFileSelect (file :: rest) st =
        { state := st, events := [Event.toastError "File size must be less than 10MB"] }) := by
  refine ⟨rfl, ?_, ?_⟩
  · intro hle
    have : ¬ file.size > maxFileSize := by
      unfold maxFileSize
      omega
    simp [handleFileSelect, this]
  · intro hlt
    have : file.size > maxFileSize := by
      unfold maxFileSize
      omega
    simp [handleFileSelect, this]

/-- An instance of C10 on both sides of the limit. -/
theorem C10_file_size_limit_witness :
    handleFileSelect [⟨"big.bin", 10485761⟩] State.initial =
      { state := State.initial,
        events := [Event.toastError "File size must be less than 10MB"] } ∧
    handleFileSelect [⟨"ok.bin", 10485760⟩] State.initial =
      { state := { State.initial with attachedFile := some ⟨"ok.bin", 10485760⟩ },
        events := [] } :=
  ⟨(C10_file_size_limit ⟨"big.bin", 10485761⟩ [] State.initial).2.2 (by decide),
   (C10_file_size_limit ⟨"ok.bin", 10485760⟩ [] State.initial).2.1 (by decide)⟩

/-! ## Claims on failed ticks, the thread fetch and sending -/

/-- C11: a conversation fetch whose conversations or connections request rejects, or
whose conversations reply has success = false, leaves conversations,
filteredConversations and the selected user as they were, and as a poll tick leaves
the whole state; a thread fetch whose messages request rejects or is answered with
success = false leaves the state, so the messages, as it was.  Both are total
functions of the state and the replies: a rejected request ends in the catch block,
which logs and notifies. -/
theorem C11_failed_tick_keeps_state (isInitialFetch : Bool) (urlUserId : Option String)
    (conversationsResponse : Reply (Envelope (List Conversation)))
    (connectionsResponse : Reply (List User)) (userResponse : Reply (Envelope User))
    (response : Reply (Envelope (List Message))) (readResponse : Reply Unit) (st : State) :
    (((∃ status, conversationsResponse = Reply.failed status) ∨
        (∃ status, connectionsResponse = Reply.failed status) ∨
        (∃ body, conversationsResponse = Reply.answered body ∧ body.success = false)) →
      (fetchConversationsAndConnections isInitialFetch urlUserId conversationsResponse
          connectionsResponse userResponse st).state.conversations = st.conversations ∧
      (fetchConversationsAndConnections isInitialFetch urlUserId conversationsResponse
          connectionsResponse userResponse st).state.filteredConversations =
        st.filteredConversations ∧
      (fetchConversationsAndConnections isInitialFetch urlUserId conversationsResponse
          connectionsResponse userResponse st).state.selectedUser = st.selectedUser ∧
      (pollTick urlUserId conversationsResponse connectionsResponse st).state = st) ∧
    (((∃ status, conversationsResponse = Reply.failed status) ∨
        (∃ status, connectionsResponse = Reply.failed status)) →
      (pollTick urlUserId conversationsResponse connectionsResponse st).events =
        [Event.request Request.getConversations, Event.request Request.getConnections,
         Event.consoleError "Error fetching conversations and connections:",
         Event.toastError "Failed to load conversations"]) ∧
    (((∃ status, response = Reply.failed status) ∨
        (∃ body, response = Reply.answered body ∧ body.success = false)) →
      (fetchMessages isInitialFetch response readResponse st).state = st ∧
      (fetchMessages isInitialFetch response readResponse st).state.messages = st.messages) ∧
    (∀ (selectedUser : User) (status : Option Nat), st.selectedUser = some selectedUser →
      response = Reply.failed status →
      (fetchMessages isInitialFetch response readResponse st).events =
        [Event.request (Request.getMessages selectedUser._id),
         Event.consoleError "Error fetching messages:",
         Event.toastError "Failed to load messages"]) := by
  refine ⟨?_, ?_, ?_, ?_⟩
  · intro h
    have key : (fetchConversationsAndConnections isInitialFetch urlUserId conversationsResponse
          connectionsResponse userResponse st).state =
        (if isInitialFetch then { st with loading := false } else st) := by
      unfold fetchConversationsAndConnections fetchConversationsAndConnectionsStart
      rcases h with ⟨s, rfl⟩ | ⟨s, rfl⟩ | ⟨body, rfl, hs⟩
      · cases isInitialFetch <;> simp
      · cases conversationsResponse <;> cases isInitialFetch <;> simp
      · cases connectionsResponse <;> cases isInitialFetch <;> simp [hs]
    refine ⟨?_, ?_, ?_, ?_⟩
    · rw [key]; cases isInitialFetch <;> simp
    · rw [key]; cases isInitialFetch <;> simp
    · rw [key]; cases isInitialFetch <;> simp
    · rw [pollTick_state]
      rcases h with ⟨s, rfl⟩ | ⟨s, rfl⟩ | ⟨body, rfl, hs⟩
      · rfl
      · cases conversationsResponse <;> rfl
      · cases connectionsResponse <;> simp [hs]
  · intro h
    unfold pollTick fetchConversationsAndConnections fetchConversationsAndConnectionsStart
    rcases h with ⟨s, rfl⟩ | ⟨s, rfl⟩
    · simp
    · cases conversationsResponse <;> simp
  · intro h
    have key : (fetchMessages isInitialFetch response readResponse st).state = st := by
      unfold fetchMessages
      cases hsel : st.selectedUser with
      | none => rfl
      | some u =>
        rcases h with ⟨s, rfl⟩ | ⟨body, rfl, hs⟩
        · simp [fetchMessagesFor_state_of_failed]
        · simp [fetchMessagesFor_of_not_success _ _ _ hs]
    exact ⟨key, by rw [key]⟩
  · intro u status hsel hresp
    subst hresp
    simp [fetchMessages, hsel, fetchMessagesFor_state_of_failed]

/-- C12 at the failing input: the send of the draft "hi" to Alice is answered with
success = false; the request was issued, the thread is as it was and the events hold
no notification. -/
theorem C12_success_false_is_silent :
    handleSendMessage (Reply.answered ⟨false, helloFromAlice⟩) chatWithAlice =
      { state := chatWithAlice,
        events := [Event.preventDefault, Event.request (Request.send "a" "hi")] } ∧
    (handleSendMessage (Reply.failed none) chatWithAlice).events =
      [Event.preventDefault, Event.request (Request.send "a" "hi"),
       Event.consoleError "Error sending message:", Event.toastError "Failed to send message"] := by
  decide

/-- C13 (as amended): one run of `fetchMessages` for the selected user first requests
the message list and shows it, and then, exactly when that request is answered with
success and a non-empty list, issues one mark-read request for that user; otherwise
the message-list request is its only request.  With no user selected it issues no
request. -/
theorem C13_fetch_then_markRead (isInitialFetch : Bool) (selectedUser : User)
    (response : Reply (Envelope (List Message))) (readResponse : Reply Unit) (st : State) :
    (∀ messages : List Message, messages ≠ [] → response = Reply.answered ⟨true, messages⟩ →
      (fetchMessagesFor isInitialFetch selectedUser response readResponse st).requests =
        [Request.getMessages selectedUser._id, Request.markRead selectedUser._id] ∧
      (fetchMessagesFor isInitialFetch selectedUser response readResponse st).state.messages =
        messages) ∧
    ((¬ ∃ messages : List Message, messages ≠ [] ∧ response = Reply.answered ⟨true, messages⟩) →
      (fetchMessagesFor isInitialFetch selectedUser response readResponse st).requests =
        [Request.getMessages selectedUser._id]) ∧
    (st.selectedUser = some selectedUser →
      fetchMessages isInitialFetch response readResponse st =
        fetchMessagesFor isInitialFetch selectedUser response readResponse st) ∧
    (st.selectedUser = none →
      (fetchMessages isInitialFetch response readResponse st).requests = []) := by
  refine ⟨?_, ?_, ?_, ?_⟩
  · intro messages hne hresp
    subst hresp
    refine ⟨by rw [fetchMessagesFor_requests]; simp [hne], ?_⟩
    cases messages with
    | nil => exact absurd rfl hne
    | cons m ms => cases readResponse <;> simp [fetchMessagesFor, fetchMessagesTry]
  · intro hnot
    rw [fetchMessagesFor_requests]
    cases response with
    | failed s => rfl
    | answered body =>
      have : ¬ (body.success = true ∧ body.data ≠ []) := by
        rintro ⟨hs, hd⟩
        apply hnot
        refine ⟨body.data, hd, ?_⟩
        cases body
        simp_all
      simp [this]
  · intro hsel
    simp [fetchMessages, hsel]
  · intro hsel
    simp [fetchMessages, hsel, Outcome.requests]

/-- C13 fails as stated: in the run that shows Alice's thread of one message the
mark-read request is the second request, after the request for the message list. -/
theorem C13_counterexample :
    (fetchMessages true (Reply.answered ⟨true, [helloFromAlice]⟩) (Reply.answered ())
      chatWithAlice).requests = [Request.getMessages "a", Request.markRead "a"] ∧
    (fetchMessages true (Reply.answered ⟨true, [helloFromAlice]⟩) (Reply.answered ())
      chatWithAlice).state.messages = [helloFromAlice] ∧
    ¬ ((fetchMessages true (Reply.answered ⟨true, [helloFromAlice]⟩) (Reply.answered ())
        chatWithAlice).requests.indexOf (Request.markRead "a") <
      (fetchMessages true (Reply.answered ⟨true, [helloFromAlice]⟩) (Reply.answered ())
        chatWithAlice).requests.indexOf (Request.getMessages "a")) := by
  decide

/-- C14 (as amended): a reply to a thread fetch is never discarded: when it carries
success = true its messages replace the displayed ones, whichever user is selected
then, and the selected user stays.  A fetch is issued only for the user selected at
that moment, so in every sequence of events in which no fetch is in flight when a user
is selected, every fetch in flight, and so every reply that can arrive, belongs to the
selected user. -/
theorem C14_replies_overwrite (s : Session) (es : List ThreadEvent) (s1 : Session)
    (hs : s.InFlightForSelected) (hidle : s.selectsWhenIdle es = true)
    (hrun : s.run es = some s1) :
    s1.InFlightForSelected ∧
    (∀ (isInitialFetch : Bool) (user : User) (response : Reply (Envelope (List Message)))
        (readResponse : Reply Unit) (s2 : Session),
      s1.step (ThreadEvent.answer isInitialFetch user response readResponse) = some s2 →
        s1.state.selectedUser = some user) ∧
    (∀ (isInitialFetch : Bool) (user : User) (messages : List Message)
        (readResponse : Reply Unit) (s0 s2 : Session),
      s0.step (ThreadEvent.answer isInitialFetch user (Reply.answered ⟨true, messages⟩)
          readResponse) = some s2 →
        s2.state.messages = messages ∧ s2.state.selectedUser = s0.state.selectedUser) := by
  have hinv : s1.InFlightForSelected := by
    induction es generalizing s with
    | nil =>
      simp only [Session.run, Option.some.injEq] at hrun
      subst hrun
      exact hs
    | cons e es ih =>
      simp only [Session.run] at hrun
      cases hstep : s.step e with
      | none => simp [hstep] at hrun
      | some sm =>
        simp only [hstep] at hrun
        simp only [Session.selectsWhenIdle, hstep, Bool.and_eq_true] at hidle
        refine ih sm (step_inFlightForSelected s sm e hs ?_ hstep) hidle.2 hrun
        intro user he
        subst he
        simpa using hidle.1
  refine ⟨hinv, ?_, ?_⟩
  · intro isInitialFetch user response readResponse s2 hstep
    simp only [Session.step] at hstep
    split_ifs at hstep with hmem
    exact hinv (isInitialFetch, user) hmem
  · intro isInitialFetch user messages readResponse s0 s2 hstep
    simp only [Session.step] at hstep
    split_ifs at hstep with hmem
    simp only [Option.some.injEq] at hstep
    subst hstep
    refine ⟨?_, fetchMessagesFor_selectedUser _ _ _ _ _⟩
    cases messages with
    | nil => simp [fetchMessagesFor, fetchMessagesTry]
    | cons m ms => cases readResponse <;> simp [fetchMessagesFor, fetchMessagesTry]

/-- An instance of C14: Alice's thread is fetched and answered before Bob is selected. -/
theorem C14_replies_overwrite_witness :
    Session.InFlightForSelected
      { state := handleSelectUser bob
          { handleSelectUser alice State.initial with messages := [helloFromAlice] },
        inFlight := [(true, bob)] } :=
  (C14_replies_overwrite { state := State.initial, inFlight := [] }
    [ThreadEvent.select alice, ThreadEvent.issue true,
     ThreadEvent.answer true alice (Reply.answered ⟨true, [helloFromAlice]⟩) (Reply.answered ()),
     ThreadEvent.select bob, ThreadEvent.issue true]
    { state := handleSelectUser bob
        { handleSelectUser alice State.initial with messages := [helloFromAlice] },
      inFlight := [(true, bob)] }
    (fun e he => absurd he (List.not_mem_nil e)) (by decide) (by decide)).1

/-- C14 fails as stated: Alice is selected and her thread requested, Bob is selected and
his thread requested and answered, then the reply to Alice's request arrives; the page
shows Alice's messages while Bob is selected. -/
theorem C14_counterexample :
    (Session.run { state := State.initial, inFlight := [] }
      [ThreadEvent.select alice, ThreadEvent.issue true,
       ThreadEvent.select bob, ThreadEvent.issue true,
       ThreadEvent.answer true bob (Reply.answered ⟨true, []⟩) (Reply.answered ()),
       ThreadEvent.answer true alice (Reply.answered ⟨true, [helloFromAlice]⟩)
         (Reply.answered ())]).map
        (fun s => (s.state.selectedUser, s.state.messages)) =
      some (some bob, [helloFromAlice]) := by
  decide

/-- C15: when a user is selected and the draft or an attached file passes the guard, a
send answered with success = true leaves the thread it held with the returned message
appended as the last element, the draft empty, no attached file, and the rest of the
state as it was. -/
theorem C15_successful_send (message : Message) (selectedUser : User) (st : State)
    (hsel : st.selectedUser = some selectedUser)
    (hdraft : trim st.newMessage ≠ "" ∨ st.attachedFile ≠ none) :
    (handleSendMessage (Reply.answered ⟨true, message⟩) st).state =
      { st with messages := st.messages ++ [message], newMessage := "", attachedFile := none,
                uploadingFile := false } ∧
    (handleSendMessage (Reply.answered ⟨true, message⟩) st).state.messages =
      st.messages ++ [message] ∧
    (handleSendMessage (Reply.answered ⟨true, message⟩) st).state.newMessage = "" ∧
    (handleSendMessage (Reply.answered ⟨true, message⟩) st).state.attachedFile = none := by
  have hg : ¬ (trim st.newMessage = "" ∧ st.attachedFile = none) := by
    rintro ⟨h1, h2⟩
    rcases hdraft with h | h
    · exact h h1
    · exact h h2
  have key : (handleSendMessage (Reply.answered ⟨true, message⟩) st).state =
      { st with messages := st.messages ++ [message], newMessage := "", attachedFile := none,
                uploadingFile := false } := by
    unfold handleSendMessage
    simp [hsel, hg]
  exact ⟨key, by rw [key], by rw [key], by rw [key]⟩

/-- An instance of C15: the draft "hi" is sent to Alice. -/
theorem C15_successful_send_witness :
    (handleSendMessage (Reply.answered ⟨true, helloFromAlice⟩) chatWithAlice).state.messages =
      chatWithAlice.messages ++ [helloFromAlice] :=
  (C15_successful_send helloFromAlice alice chatWithAlice rfl (Or.inl (by decide))).2.1

/-- C16: a send whose request rejects, or whose reply has success = false, leaves the
messages, the draft and the attached file as they were; and every send that passes the
guard ends with the uploading flag false, whatever the reply. -/
theorem C16_send_is_atomic (response : Reply (Envelope Message)) (st : State) :
    (((∃ status, response = Reply.failed status) ∨
        (∃ body, response = Reply.answered body ∧ body.success = false)) →
      (handleSendMessage response st).state.messages = st.messages ∧
      (handleSendMessage response st).state.newMessage = st.newMessage ∧
      (handleSendMessage response st).state.attachedFile = st.attachedFile) ∧
    ((st.selectedUser ≠ none ∧ (trim st.newMessage ≠ "" ∨ st.attachedFile ≠ none)) →
      (handleSendMessage response st).state.uploadingFile = false) := by
  constructor
  · intro h
    cases hsel : st.selectedUser with
    | none => simp [handleSendMessage, hsel]
    | some u =>
      by_cases hg : trim st.newMessage = "" ∧ st.attachedFile = none
      · simp [handleSendMessage, hsel, hg]
      · rcases h with ⟨s, rfl⟩ | ⟨body, rfl, hs⟩
        · simp [handleSendMessage, hsel, hg]
        · simp [handleSendMessage, hsel, hg, hs]
  · rintro ⟨hsel, hdraft⟩
    cases hu : st.selectedUser with
    | none => exact absurd hu hsel
    | some u =>
      have hg : ¬ (trim st.newMessage = "" ∧ st.attachedFile = none) := by
        rintro ⟨h1, h2⟩
        rcases hdraft with h | h
        · exact h h1
        · exact h h2
      cases response with
      | failed s => simp [handleSendMessage, hu, hg]
      | answered body =>
        cases hs : body.success <;> simp [handleSendMessage, hu, hg, hs]

/-- An instance of C16: the send of the draft "hi" to Alice rejects. -/
theorem C16_send_is_atomic_witness :
    ((handleSendMessage (Reply.failed (some 500)) chatWithAlice).state.messages =
        chatWithAlice.messages ∧
      (handleSendMessage (Reply.failed (some 500)) chatWithAlice).state.newMessage = "hi" ∧
      (handleSendMessage (Reply.failed (some 500)) chatWithAlice).state.attachedFile = none) ∧
    (handleSendMessage (Reply.failed (some 500)) chatWithAlice).state.uploadingFile = false :=
  ⟨(C16_send_is_atomic (Reply.failed (some 500)) chatWithAlice).1 (Or.inl ⟨some 500, rfl⟩),
   (C16_send_is_atomic (Reply.failed (some 500)) chatWithAlice).2 (by decide)⟩

/-- C17: when the request status has hasRequest = true and canMessage = false, the
text input, the file input, the attach button and the send button are disabled; when
no upload is in progress and the status is absent, or has hasRequest = false, or has
canMessage = true, the text input and the attach button are enabled. -/
theorem C17_composer_gate (st : State) :
    (∀ status : RequestStatus, st.messageRequestStatus = some status →
      status.hasRequest = true → status.canMessage = false →
      textInputDisabled st = true ∧ fileInputDisabled st = true ∧
        attachButtonDisabled st = true ∧ sendButtonDisabled st = true) ∧
    (st.uploadingFile = false →
      (st.messageRequestStatus = none ∨
        ∃ status : RequestStatus, st.messageRequestStatus = some status ∧
          (status.hasRequest = false ∨ status.canMessage = true)) →
      textInputDisabled st = false ∧ attachButtonDisabled st = false) := by
  constructor
  · intro status hst hreq hcan
    simp [textInputDisabled, fileInputDisabled, attachButtonDisabled, sendButtonDisabled,
      gateClosed, hst, hreq, hcan]
  · intro hup h
    rcases h with hnone | ⟨status, hst, hreq | hcan⟩
    · simp [textInputDisabled, attachButtonDisabled, gateClosed, hnone, hup]
    · simp [textInputDisabled, attachButtonDisabled, gateClosed, hst, hup, hreq]
    · simp [textInputDisabled, attachButtonDisabled, gateClosed, hst, hup, hcan]

/-- C18: the accept and decline panel is rendered exactly when the status has
hasRequest = true and isSender = false, the waiting notice exactly when it has
hasRequest = true and isSender = true; the conditional renders one thing, so never
both, and it renders neither when the status is null or has hasRequest = false. -/
theorem C18_request_banner (messageRequestStatus : Option RequestStatus) :
    (requestBanner messageRequestStatus = Banner.acceptDecline ↔
      ∃ status : RequestStatus, messageRequestStatus = some status ∧
        status.hasRequest = true ∧ status.isSender = false) ∧
    (requestBanner messageRequestStatus = Banner.waiting ↔
      ∃ status : RequestStatus, messageRequestStatus = some status ∧
        status.hasRequest = true ∧ status.isSender = true) ∧
    ¬ (requestBanner messageRequestStatus = Banner.acceptDecline ∧
        requestBanner messageRequestStatus = Banner.waiting) ∧
    ((messageRequestStatus = none ∨
        ∃ status : RequestStatus, messageRequestStatus = some status ∧
          status.hasRequest = false) →
      requestBanner messageRequestStatus = Banner.nothing) := by
  cases messageRequestStatus with
  | none => simp [requestBanner]
  | some status =>
    cases hreq : status.hasRequest <;> cases hsend : status.isSender <;>
      simp [requestBanner, hreq, hsend]

/-- C19 at the failing input, for every request id and state: the accept request is
answered with success = true; the handler shows the success notification and clears the
request status, then the call of a name that is not in scope throws, so it issues no
request for the conversations and ends by showing the failure notification. -/
theorem C19_accept_ends_in_failure (requestId : String) (st : State) :
    handleAcceptRequest requestId (Reply.answered ⟨true, ()⟩) st =
      { state := { st with messageRequestStatus := none },
        events := [Event.request (Request.acceptRequest requestId),
                   Event.toastSuccess "Message request accepted",
                   Event.consoleError "Error accepting request:",
                   Event.toastError "Failed to accept request"] } ∧
    (handleAcceptRequest requestId (Reply.answered ⟨true, ()⟩) st).requests =
      [Request.acceptRequest requestId] ∧
    (handleAcceptRequest requestId (Reply.answered ⟨true, ()⟩) st).state.conversations =
      st.conversations ∧
    (∀ status : Option Nat,
      handleAcceptRequest requestId (Reply.failed status) st =
        { state := st,
          events := [Event.request (Request.acceptRequest requestId),
                     Event.consoleError "Error accepting request:",
                     Event.toastError "Failed to accept request"] }) := by
  simp [handleAcceptRequest, handleAcceptRequestTry, Outcome.requests]

/-- C20 at the failing input: the search for "ali" shows Alice only; a poll tick whose
replies hold the same two conversations finds the list unchanged, so the search effect
does not run again, and the tick has put both conversations into the displayed list. -/
theorem C20_tick_drops_the_filter :
    searchEffect { chatWithAlice with searchQuery := "ali" } = searchingAli ∧
    (pollTickRendered (Reply.answered ⟨true, [aliceConversation, bobConversation]⟩)
      (Reply.answered []) searchingAli).filteredConversations =
        [aliceConversation, bobConversation] ∧
    (pollTickRendered (Reply.answered ⟨true, [aliceConversation, bobConversation]⟩)
      (Reply.answered []) searchingAli).conversations.filter
        (matchesSearch (pollTickRendered
          (Reply.answered ⟨true, [aliceConversation, bobConversation]⟩)
          (Reply.answered []) searchingAli).searchQuery) = [aliceConversation] := by
  have hsorted : sortedConversations [aliceConversation, bobConversation] [] =
      [aliceConversation, bobConversation] := by decide
  have hstate : pollTickRendered (Reply.answered ⟨true, [aliceConversation, bobConversation]⟩)
      (Reply.answered []) searchingAli =
        { searchingAli with filteredConversations := [aliceConversation, bobConversation] } := by
    unfold pollTickRendered
    rw [pollTick_state]
    simp [conversationsReplaced, hsorted, keepIfUnchanged_eq, searchingAli, chatWithAlice,
      hasChanges_self]
  refine ⟨by decide, ?_, ?_⟩
  · rw [hstate]
  · rw [hstate]
    decide

/-! ## Claims on the bubble of a message and on file sizes -/

theorem roundedTenths_bounds (n k : Nat) (hk : 0 < k) :
    2 * k * roundedTenths n k ≤ 20 * n + k ∧ 20 * n + k < 2 * k * (roundedTenths n k + 1) := by
  unfold roundedTenths
  have hpos : 0 < 2 * k := by omega
  constructor
  · exact Nat.mul_div_le (20 * n + k) (2 * k)
  · exact Nat.lt_mul_div_succ (20 * n + k) hpos

theorem roundedTenths_nearest (n k : Nat) (hk : 0 < k) :
    (n : ℚ) / k - 1 / 20 < (roundedTenths n k : ℚ) / 10 ∧
    (roundedTenths n k : ℚ) / 10 ≤ (n : ℚ) / k + 1 / 20 := by
  obtain ⟨h1, h2⟩ := roundedTenths_bounds n k hk
  have hkq : (0 : ℚ) < k := by exact_mod_cast hk
  have h1q : (2 : ℚ) * k * roundedTenths n k ≤ 20 * n + k := by exact_mod_cast h1
  have h2q : (20 : ℚ) * n + k < 2 * k * (roundedTenths n k + 1) := by exact_mod_cast h2
  constructor
  · rw [div_sub' _ _ _ (ne_of_gt hkq), div_lt_div_iff₀ (by positivity) (by norm_num)]
    nlinarith
  · rw [div_add' _ _ _ (ne_of_gt hkq), div_le_div_iff₀ (by norm_num) (by positivity)]
    nlinarith

/-- C22: a message with a non-empty content, a non-empty fileUrl or a shared post has
at least one element above its timestamp: the attachment link when fileUrl is
non-empty, the shared-post preview when there is a shared post, and the paragraph
when content is non-empty and there is no shared post; so its bubble is not the
timestamp alone. -/
theorem C22_message_has_body (message : Message)
    (hinv : truthy message.content = true ∨ truthy message.fileUrl = true ∨
      message.sharedPost ≠ none) :
    messageBody message ≠ [] ∧
    messageBubble message ≠ [BubbleElement.timestamp message.createdAt] ∧
    (truthy message.fileUrl = true →
      BubbleElement.attachmentLink (message.fileUrl.getD "") message.fileName message.fileSize ∈
        messageBody message) ∧
    (∀ post : Post, message.sharedPost = some post →
      ∃ preview : PostPreview, SharedPostPreview (some post) = some preview ∧
        BubbleElement.sharedPostPreview preview ∈ messageBody message) ∧
    (truthy message.content = true → message.sharedPost = none →
      BubbleElement.paragraph (message.content.getD "") ∈ messageBody message) := by
  have hlink : truthy message.fileUrl = true →
      BubbleElement.attachmentLink (message.fileUrl.getD "") message.fileName message.fileSize ∈
        messageBody message := by
    intro h
    simp [messageBody, h]
  have hpreview : ∀ post : Post, message.sharedPost = some post →
      ∃ preview : PostPreview, SharedPostPreview (some post) = some preview ∧
        BubbleElement.sharedPostPreview preview ∈ messageBody message := by
    intro post h
    refine ⟨_, rfl, ?_⟩
    simp [messageBody, h, SharedPostPreview]
  have hparagraph : truthy message.content = true → message.sharedPost = none →
      BubbleElement.paragraph (message.content.getD "") ∈ messageBody message := by
    intro h1 h2
    simp [messageBody, h1, h2]
  have hbody : messageBody message ≠ [] := by
    intro hnil
    rcases hinv with h | h | h
    · cases hpost : message.sharedPost with
      | none =>
        have := hparagraph h hpost
        rw [hnil] at this
        exact List.not_mem_nil _ this
      | some post =>
        obtain ⟨preview, _, hmem⟩ := hpreview post hpost
        rw [hnil] at hmem
        exact List.not_mem_nil _ hmem
    · have := hlink h
      rw [hnil] at this
      exact List.not_mem_nil _ this
    · cases hpost : message.sharedPost with
      | none => exact h hpost
      | some post =>
        obtain ⟨preview, _, hmem⟩ := hpreview post hpost
        rw [hnil] at hmem
        exact List.not_mem_nil _ hmem
  refine ⟨hbody, ?_, hlink, hpreview, hparagraph⟩
  intro hbubble
  unfold messageBubble at hbubble
  cases hb : messageBody message with
  | nil => exact hbody hb
  | cons e es =>
    rw [hb] at hbubble
    have := congrArg List.length hbubble
    simp at this

/-- An instance of C22: a message that has a text only. -/
theorem C22_message_has_body_witness :
    messageBody helloFromAlice ≠ [] :=
  (C22_message_has_body helloFromAlice (Or.inl (by decide))).1

/-- C23 (as amended): for every byte count `n`, `formatFileSize n` is `n` and " B"
below 1024, the tenth nearest to `n / 1024` (the larger on a tie) and " KB" from 1024
to below 1048576, and the tenth nearest to `n / 1048576` and " MB" from 1048576 on;
the number displayed is below 1024 for every `n` below 1048525, and it is 1024.0 for
`n` from 1048525 to 1048575. -/
theorem C23_formatFileSize (n : Nat) :
    (n < 1024 → formatFileSize n = String.mk (decimal n ++ [' ', 'B'])) ∧
    (1024 ≤ n → n < 1048576 →
      formatFileSize n =
        String.mk (decimal (roundedTenths n 1024 / 10) ++
          '.' :: decimal (roundedTenths n 1024 % 10) ++ [' ', 'K', 'B']) ∧
      (n : ℚ) / 1024 - 1 / 20 < (roundedTenths n 1024 : ℚ) / 10 ∧
      (roundedTenths n 1024 : ℚ) / 10 ≤ (n : ℚ) / 1024 + 1 / 20) ∧
    (1048576 ≤ n →
      formatFileSize n =
        String.mk (decimal (roundedTenths n 1048576 / 10) ++
          '.' :: decimal (roundedTenths n 1048576 % 10) ++ [' ', 'M', 'B']) ∧
      (n : ℚ) / 1048576 - 1 / 20 < (roundedTenths n 1048576 : ℚ) / 10 ∧
      (roundedTenths n 1048576 : ℚ) / 10 ≤ (n : ℚ) / 1048576 + 1 / 20) ∧
    (1024 ≤ n → n < 1048525 → roundedTenths n 1024 < 10240) ∧
    (1048525 ≤ n → n < 1048576 → roundedTenths n 1024 = 10240) := by
  refine ⟨?_, ?_, ?_, ?_, ?_⟩
  · intro h
    rw [formatFileSize, if_pos h]
  · intro h1 h2
    have hn : ¬ n < 1024 := by omega
    refine ⟨?_, ?_⟩
    · rw [formatFileSize, if_neg hn, if_pos h2, toFixed1]
    · have := roundedTenths_nearest n 1024 (by norm_num)
      exact_mod_cast this
  · intro h1
    have hn : ¬ n < 1024 := by omega
    have hn2 : ¬ n < 1048576 := by omega
    refine ⟨?_, ?_⟩
    · rw [formatFileSize, if_neg hn, if_neg hn2, toFixed1]
    · have := roundedTenths_nearest n 1048576 (by norm_num)
      exact_mod_cast this
  · intro _ h2
    unfold roundedTenths
    omega
  · intro h1 h2
    unfold roundedTenths
    omega

/-- C23 fails as stated: 1048575 bytes are below 1048576 and are displayed as 1024.0 KB. -/
theorem C23_counterexample :
    formatFileSize 1048575 = "1024.0 KB" ∧ roundedTenths 1048575 1024 = 10240 := by
  constructor
  · simp [formatFileSize, toFixed1, roundedTenths, decimal]
    decide
  · decide

end MessagesPage

/-! # Claims on the socket module -/

namespace Socket

theorem initial_valid : Module.initial.Valid := by
  refine ⟨?_, ?_, ?_, ?_, ?_, ?_⟩ <;> simp [Module.initial]

theorem initSocket_of_none (m : Module) (h : m.socket = none) :
    initSocket m =
      (some m.created,
        { socket := some m.created,
          created := m.created + 1,
          handlers := m.handlers ++
            [(m.created, "connect"), (m.created, "connect_error"), (m.created, "disconnect")],
          disconnected := m.disconnected }) := by
  simp [initSocket, h]

theorem initSocket_of_some (m : Module) (s : Nat) (h : m.socket = some s) :
    initSocket m = (some s, m) := by
  simp [initSocket, h]

theorem getSocket_eq_initSocket (m : Module) : getSocket m = initSocket m := by
  unfold getSocket
  cases h : m.socket with
  | none => rfl
  | some s => simp [initSocket, h]

theorem initSocket_valid (m : Module) (hv : m.Valid) : (initSocket m).2.Valid := by
  cases h : m.socket with
  | some s => rw [initSocket_of_some m s h]; exact hv
  | none =>
    rw [initSocket_of_none m h]
    obtain ⟨h1, _, h3, h4, h5, h6⟩ := hv
    refine ⟨?_, ?_, ?_, h4, ?_, ?_⟩
    · intro s hs
      by_cases hsc : s = m.created
      · exact Or.inl (by simp [hsc])
      · have hlt : s < m.created := by
          have : s < m.created + 1 := hs
          omega
        rcases h1 s hlt with hsome | hdis
        · rw [h] at hsome
          exact absurd hsome (by simp)
        · exact Or.inr hdis
    · intro s hs
      simp only [Option.some.injEq] at hs
      subst hs
      refine ⟨Nat.lt_succ_self _, ?_⟩
      intro hmem
      exact absurd (h3 _ hmem) (Nat.lt_irrefl _)
    · intro s hs
      exact Nat.lt_succ_of_lt (h3 s hs)
    · intro s event hmem
      simp only [List.mem_append, List.mem_cons, Prod.mk.injEq, List.mem_singleton,
        List.not_mem_nil, or_false] at hmem
      rcases hmem with hold | ⟨rfl, _⟩ | ⟨rfl, _⟩ | ⟨rfl, _⟩
      · exact Nat.lt_succ_of_lt (h5 s event hold)
      · exact Nat.lt_succ_self _
      · exact Nat.lt_succ_self _
      · exact Nat.lt_succ_self _
    · intro s hs event hevent
      have hs' : s < m.created + 1 := hs
      by_cases hsc : s = m.created
      · subst hsc
        have hzero : m.handlers.count (m.created, event) = 0 := by
          rw [List.count_eq_zero]
          intro hmem
          exact absurd (h5 _ _ hmem) (Nat.lt_irrefl _)
        simp only [List.mem_cons, List.mem_singleton, List.not_mem_nil, or_false] at hevent
        rcases hevent with rfl | rfl | rfl <;>
          simp [List.count_append, hzero, List.count_cons]
      · have hlt : s < m.created := by omega
        have hold := h6 s hlt event hevent
        have hne : ∀ e : String, ((m.created, e) == (s, event)) = false := by
          intro e
          simp
          intro hEq
          exact absurd hEq.symm hsc
        simp [List.count_append, hold, List.count_cons, hne]

theorem disconnectSocket_valid (m : Module) (hv : m.Valid) : (disconnectSocket m).Valid := by
  unfold disconnectSocket
  cases h : m.socket with
  | none => simpa [h] using hv
  | some s =>
    obtain ⟨h1, h2, h3, h4, h5, h6⟩ := hv
    obtain ⟨hlt, hnot⟩ := h2 s h
    refine ⟨?_, ?_, ?_, ?_, h5, h6⟩
    · intro s' hs'
      right
      rcases h1 s' hs' with hsome | hdis
      · rw [h] at hsome
        simp only [Option.some.injEq] at hsome
        simp [hsome]
      · simp [hdis]
    · intro s' hs'
      simp at hs'
    · intro s' hs'
      simp only [List.mem_append, List.mem_singleton] at hs'
      rcases hs' with hold | rfl
      · exact h3 s' hold
      · exact hlt
    · simp only
      rw [List.nodup_append]
      refine ⟨h4, by simp, ?_⟩
      intro a ha hb
      simp only [List.mem_singleton] at hb
      subst hb
      exact hnot ha

theorem call_valid (m : Module) (c : Call) (hv : m.Valid) : (m.call c).Valid := by
  cases c with
  | initSocket => exact initSocket_valid m hv
  | getSocket =>
    simp only [Module.call]
    rw [getSocket_eq_initSocket]
    exact initSocket_valid m hv
  | disconnectSocket => exact disconnectSocket_valid m hv

theorem run_valid (calls : List Call) : ∀ m : Module, m.Valid → (m.run calls).Valid := by
  induction calls with
  | nil => intro m hv; exact hv
  | cons c cs ih =>
    intro m hv
    exact ih (m.call c) (call_valid m c hv)

theorem run_without_disconnect_of_some (calls : List Call)
    (hno : ∀ c ∈ calls, c ≠ Call.disconnectSocket) :
    ∀ (m : Module) (s : Nat), m.socket = some s → m.run calls = m := by
  induction calls with
  | nil => intro m s _; rfl
  | cons c cs ih =>
    intro m s hs
    have hc : m.call c = m := by
      cases c with
      | initSocket => simp [Module.call, initSocket_of_some m s hs]
      | getSocket => simp [Module.call, getSocket_eq_initSocket, initSocket_of_some m s hs]
      | disconnectSocket => exact absurd rfl (hno _ (by simp))
    show (m.call c).run cs = m
    rw [hc]
    exact ih (fun c' hc' => hno c' (by simp [hc'])) m s hs

/-- C21: `initSocket` and `getSocket` return the same value, never null, and it is the
socket the module holds afterwards; one or more calls of them with no
`disconnectSocket` in between make exactly one socket, with its connect, connect_error
and disconnect handlers registered once each, when none was held, and change nothing
when one was held; `disconnectSocket` disconnects the held socket and empties the
module, does nothing when none is held, and the next `initSocket` or `getSocket` makes
a socket that did not exist before; after any sequence of calls every socket made is
the one held or was disconnected. -/
theorem C21_single_socket (m : Module) (calls : List Call) :
    (initSocket m = getSocket m ∧ (initSocket m).1 ≠ none ∧
      (initSocket m).1 = (initSocket m).2.socket) ∧
    (calls ≠ [] → (∀ c ∈ calls, c ≠ Call.disconnectSocket) →
      (m.socket = none →
        m.run calls =
          { socket := some m.created,
            created := m.created + 1,
            handlers := m.handlers ++
              [(m.created, "connect"), (m.created, "connect_error"),
               (m.created, "disconnect")],
            disconnected := m.disconnected }) ∧
      (m.socket ≠ none → m.run calls = m)) ∧
    (∀ s : Nat, m.socket = some s →
      disconnectSocket m = { m with socket := none, disconnected := m.disconnected ++ [s] }) ∧
    (m.socket = none → disconnectSocket m = m) ∧
    ((initSocket (disconnectSocket m)).1 = some (disconnectSocket m).created ∧
      (getSocket (disconnectSocket m)).1 = some (disconnectSocket m).created ∧
      (initSocket (disconnectSocket m)).2.created = (disconnectSocket m).created + 1) ∧
    (Module.initial.run calls).Valid := by
  refine ⟨⟨(getSocket_eq_initSocket m).symm, ?_, ?_⟩, ?_, ?_, ?_, ?_, ?_⟩
  · cases h : m.socket with
    | none => simp [initSocket_of_none m h]
    | some s => simp [initSocket_of_some m s h]
  · cases h : m.socket with
    | none => simp [initSocket_of_none m h]
    | some s => simp [initSocket_of_some m s h, h]
  · intro hne hno
    constructor
    · intro hnone
      cases calls with
      | nil => exact absurd rfl hne
      | cons c cs =>
        have hc : m.call c = (initSocket m).2 := by
          cases c with
          | initSocket => rfl
          | getSocket => simp [Module.call, getSocket_eq_initSocket]
          | disconnectSocket => exact absurd rfl (hno _ (by simp))
        show (m.call c).run cs = _
        rw [hc, initSocket_of_none m hnone]
        exact run_without_disconnect_of_some cs (fun c' hc' => hno c' (by simp [hc'])) _
          m.created rfl
    · intro hsome
      cases h : m.socket with
      | none => exact absurd h hsome
      | some s => exact run_without_disconnect_of_some calls hno m s h
  · intro s hs
    simp [disconnectSocket, hs]
  · intro hnone
    simp [disconnectSocket, hnone]
  · have hnone : (disconnectSocket m).socket = none := by
      unfold disconnectSocket
      cases h : m.socket <;> simp [h]
    rw [getSocket_eq_initSocket, initSocket_of_none _ hnone]
    exact ⟨rfl, rfl, rfl⟩
  · exact run_valid calls Module.initial initial_valid

end Socket

/-! # Claims on the auth router -/

namespace AuthRoute

theorem reached_pair (callsNext : Handler → Bool) (first second : Handler) :
    reached callsNext [first, second] =
      if callsNext first then [first, second] else [first] := by
  cases h : callsNext first <;> simp [reached, h]

/-- C24: GET /me and PUT /update-account-type are registered with `protectRoute` in
front of their controller, so `protectRoute` is called first and the controller is
called exactly when `protectRoute` passes the request on; signup, login, logout,
forgot-password and reset-password have their controller as the only handler; and no
method and path are registered twice. -/
theorem C24_protected_routes (callsNext : Handler → Bool) :
    handlersFor Method.get "/me" = [Handler.protectRoute, Handler.getMe] ∧
    handlersFor Method.put "/update-account-type" =
      [Handler.protectRoute, Handler.updateAccountType] ∧
    (handle callsNext Method.get "/me").head? = some Handler.protectRoute ∧
    (handle callsNext Method.put "/update-account-type").head? = some Handler.protectRoute ∧
    (Handler.getMe ∈ handle callsNext Method.get "/me" ↔
      callsNext Handler.protectRoute = true) ∧
    (Handler.updateAccountType ∈ handle callsNext Method.put "/update-account-type" ↔
      callsNext Handler.protectRoute = true) ∧
    handlersFor Method.post "/signup" = [Handler.signup] ∧
    handlersFor Method.post "/login" = [Handler.login] ∧
    handlersFor Method.post "/logout" = [Handler.logout] ∧
    handlersFor Method.post "/forgot-password" = [Handler.forgotPassword] ∧
    handlersFor Method.post "/reset-password" = [Handler.resetPassword] ∧
    (router.map (fun route => (route.method, route.path))).Nodup ∧
    router.length = 7 := by
  have hme : handlersFor Method.get "/me" = [Handler.protectRoute, Handler.getMe] := by decide
  have hupd : handlersFor Method.put "/update-account-type" =
      [Handler.protectRoute, Handler.updateAccountType] := by decide
  refine ⟨hme, hupd, ?_, ?_, ?_, ?_, by decide, by decide, by decide, by decide, by decide,
    by decide, rfl⟩
  · unfold handle
    rw [hme, reached_pair]
    cases callsNext Handler.protectRoute <;> simp
  · unfold handle
    rw [hupd, reached_pair]
    cases callsNext Handler.protectRoute <;> simp
  · unfold handle
    rw [hme, reached_pair]
    cases callsNext Handler.protectRoute <;> simp
  · unfold handle
    rw [hupd, reached_pair]
    cases callsNext Handler.protectRoute <;> simp

end AuthRoute
